import Mathlib

/-!
threeJS_terrain: animated cylinder terrain and player rig.

A shallow embedding of `src/terrain.js` and `src/player.js`.

A JavaScript number is modelled by the real value it denotes, in a linearly
ordered field `R` with a floor function.  Every arithmetic operation of the
program rounds its exact result to the nearest binary64 value, ties to even
(`jsAdd`, `jsMul`), a decimal literal such as `0.001` denotes the binary64
value nearest to it (`toDouble 0.001`), and a write into the `Float32Array`
of the position attribute rounds to binary32 (`fround`).  The exponent range
is unbounded: overflow, subnormal numbers, `NaN` and the sign of zero are
not modelled.  The real functions behind `Math.cos` and `Math.sin`, the real
number behind `Math.PI`, the results of `Math.random` and the three.js
library calls are parameters of the model.
-/

namespace ThreeTerrain

/-! ## Data model -/

/-- The real functions and constant that the JavaScript `Math` object
approximates: `Math.cos(x)` is `toDouble (cos x)`, `Math.PI` is
`toDouble PI`. -/
structure JSMath (R : Type) where
  cos : R → R
  sin : R → R
  PI : R

/-- A three.js `Vector3`. -/
structure Vector3 (R : Type) where
  x : R
  y : R
  z : R
deriving DecidableEq, Repr

/-- A three.js `Euler` (the `rotation` of an `Object3D`). -/
structure Euler (R : Type) where
  x : R
  y : R
  z : R
deriving DecidableEq, Repr

/-- The per-vertex animation record pushed on `this.waves`. -/
structure Wave (R : Type) where
  ang : R
  amp : R
  speed : R
deriving DecidableEq, Repr

/-- The fields of the three.js `Mesh` that `terrain.js` reads or writes. -/
structure Mesh (R : Type) where
  position : Vector3 R
  rotation : Euler R
  receiveShadow : Bool
deriving DecidableEq, Repr

/-- The `options` argument of `new Terrain(scene, options)`; an omitted
field is `none`. -/
structure TerrainOptions (R : Type) where
  radius : Option R := none
  height : Option R := none
  radialSegments : Option R := none
  heightSegments : Option R := none
  rotationSpeed : Option R := none

/-- A `Terrain` instance.  `position` is the `position` attribute of
`this.geometry` (one entry per vertex, held in a `Float32Array`) and
`needsUpdate` its flag. -/
structure Terrain (R : Type) where
  radius : R
  height : R
  radialSegments : R
  heightSegments : R
  rotationSpeed : R
  position : List (Vector3 R)
  needsUpdate : Bool
  waves : List (Wave R)
  originalPositions : List (Vector3 R)
  mesh : Mesh R
deriving DecidableEq, Repr

/-! ## JavaScript arithmetic -/

section Arithmetic

variable {R : Type} [LinearOrderedField R] [FloorRing R]

/-- Round to the nearest integer, ties to the even one. -/
def roundHalfEven (y : R) : ℤ :=
  let f := ⌊y⌋
  if y - f < 1 / 2 then f
  else if 1 / 2 < y - f then f + 1
  else if f % 2 = 0 then f else f + 1

/-- The unit in the last place of `x > 0` for a significand of `q`
fraction bits. -/
def ulp (q : ℕ) (x : R) : R :=
  (2 : R) ^ (Int.log 2 x - (q : ℤ))

/-- Round `x > 0` to the nearest number with `q` fraction bits, ties to
even. -/
def roundPos (q : ℕ) (x : R) : R :=
  (roundHalfEven (x / ulp q x) : R) * ulp q x

/-- IEEE 754 round-to-nearest, ties-to-even, to a significand of `q`
fraction bits. -/
def roundTo (q : ℕ) (x : R) : R :=
  if x = 0 then 0 else if x < 0 then -roundPos q (-x) else roundPos q x

/-- The binary64 value nearest to `x`: the value of a decimal literal and
of every arithmetic result. -/
def toDouble (x : R) : R :=
  roundTo 52 x

/-- The binary32 value nearest to `x`: what a `Float32Array` stores
(`Math.fround`). -/
def fround (x : R) : R :=
  roundTo 23 x

/-- JavaScript `x + y`. -/
def jsAdd (x y : R) : R :=
  toDouble (x + y)

/-- JavaScript `x * y`. -/
def jsMul (x y : R) : R :=
  toDouble (x * y)

/-- JavaScript `x / y`. -/
def jsDiv (x y : R) : R :=
  toDouble (x / y)

/-- JavaScript `Math.cos(x)`. -/
def mathCos (M : JSMath R) (x : R) : R :=
  toDouble (M.cos x)

/-- JavaScript `Math.sin(x)`. -/
def mathSin (M : JSMath R) (x : R) : R :=
  toDouble (M.sin x)

/-- JavaScript `Math.PI`. -/
def mathPI (M : JSMath R) : R :=
  toDouble M.PI

end Arithmetic

/-! ## `terrain.js` -/

section TerrainCode

variable {R : Type} [LinearOrderedField R] [FloorRing R]

/-- JavaScript `v || d` on an optional number: an omitted (`undefined`)
field and the falsy number `0` both give `d`. -/
def orDefault (v : Option R) (d : R) : R :=
  match v with
  | none => d
  | some a => if a = 0 then d else a

/-- The wave record pushed for one vertex by the constructor loop
(terrain.js 59-66): `n` is the number of `Math.random()` draws made so far
and `random k` the value of draw `k`. -/
def newWave (M : JSMath R) (random : Nat → R) (n : Nat) : Wave R :=
  { ang := jsMul (jsMul (random n) (mathPI M)) 2
    amp := jsAdd 3 (jsMul (random (n + 1)) (toDouble 0.0001))
    speed := jsAdd (toDouble 0.001) (jsMul (random (n + 2)) (toDouble 0.0032)) }

/-- The constructor loop `for (let i = 0; i < vertexCount; i++)`
(terrain.js 54-67), over the vertices still to visit. -/
def constructorLoop (M : JSMath R) (random : Nat → R) :
    List (Vector3 R) → Nat → List (Wave R) → List (Vector3 R) →
    List (Wave R) × List (Vector3 R)
  | [], _, waves, originalPositions => (waves, originalPositions)
  | p :: rest, n, waves, originalPositions =>
    constructorLoop M random rest (n + 3)
      (waves ++ [newWave M random n])
      (originalPositions ++ [Vector3.mk p.x p.y p.z])

/-- A vertex as the `Float32Array` of a position attribute holds it. -/
def froundVector (p : Vector3 R) : Vector3 R :=
  Vector3.mk (fround p.x) (fround p.y) (fround p.z)

/-- The constructor `new Terrain(scene, options)` (terrain.js 21-84).
`cylinder radius height radialSegments heightSegments` stands for the
vertices that the merged, rotated three.js `CylinderGeometry` writes into
its position attribute; `random` lists the successive results of
`Math.random()`. -/
def Terrain.constructor (M : JSMath R)
    (cylinder : R → R → R → R → List (Vector3 R)) (random : Nat → R)
    (options : TerrainOptions R) : Terrain R :=
  let radius := orDefault options.radius 600
  let height := orDefault options.height 800
  let radialSegments := orDefault options.radialSegments 40
  let heightSegments := orDefault options.heightSegments 10
  let rotationSpeed := orDefault options.rotationSpeed (toDouble 0.01)
  let geometry := (cylinder radius height radialSegments heightSegments).map froundVector
  let r := constructorLoop M random geometry 0 [] []
  { radius := radius
    height := height
    radialSegments := radialSegments
    heightSegments := heightSegments
    rotationSpeed := rotationSpeed
    position := geometry
    needsUpdate := false
    waves := r.1
    originalPositions := r.2
    mesh :=
      { position := Vector3.mk 0 (-600) 0
        rotation := Euler.mk 0 0 0
        receiveShadow := true } }

/-- One iteration of the loop of `update` (terrain.js 95-103) at index
`i`.  Reading `.x` of a missing `originalPositions[i]` or `.ang` of a
missing `waves[i]` throws in JavaScript: `none`.  `setXYZ` writes into the
`Float32Array` of the attribute. -/
def updateVertex (M : JSMath R) (t : Terrain R) (i : Nat) : Option (Terrain R) :=
  match t.originalPositions[i]?, t.waves[i]? with
  | some orig, some wave =>
    let newX := jsAdd orig.x (jsMul (mathCos M wave.ang) wave.amp)
    let newY := jsAdd orig.y (jsMul (mathSin M wave.ang) wave.amp)
    some { t with
      position := t.position.set i (froundVector (Vector3.mk newX newY orig.z))
      waves := t.waves.set i { wave with ang := jsAdd wave.ang wave.speed } }
  | _, _ => none

/-- `Terrain.update(delta)` (terrain.js 91-110). -/
def Terrain.update (M : JSMath R) (t : Terrain R) (delta : R) : Option (Terrain R) :=
  let vertexCount := t.position.length
  ((List.range vertexCount).foldlM (updateVertex M) t).map fun t1 =>
    { t1 with
      needsUpdate := true
      mesh := { t1.mesh with
        rotation := { t1.mesh.rotation with
          z := jsAdd t1.mesh.rotation.z (jsMul delta t1.rotationSpeed) } } }

/-- Successive calls `update(d_1); ...; update(d_k)`. -/
def Terrain.updates (M : JSMath R) (t : Terrain R) : List R → Option (Terrain R)
  | [] => some t
  | d :: ds => (Terrain.update M t d).bind fun t1 => Terrain.updates M t1 ds

/-- `Terrain.getTerrainHeight(x, z)` (terrain.js 120-122). -/
def Terrain.getTerrainHeight (t : Terrain R) (_x _z : R) : R :=
  t.mesh.position.y

/-- The position `update` stores for a vertex with original position
`orig` and wave record `wave` (terrain.js 98-101). -/
def moved (M : JSMath R) (orig : Vector3 R) (wave : Wave R) : Vector3 R :=
  froundVector (Vector3.mk (jsAdd orig.x (jsMul (mathCos M wave.ang) wave.amp))
    (jsAdd orig.y (jsMul (mathSin M wave.ang) wave.amp)) orig.z)

/-- The wave record after one iteration: `wave.ang += wave.speed`. -/
def advanced (wave : Wave R) : Wave R :=
  { wave with ang := jsAdd wave.ang wave.speed }

/-- A wave record after `k` iterations: `wave.ang += wave.speed`, `k`
times in succession. -/
def advancedBy (k : Nat) (wave : Wave R) : Wave R :=
  { wave with ang := (fun a => jsAdd a wave.speed)^[k] wave.ang }

/-- The rotation angle after the calls `update(d)` for `d` in `ds`:
`z += d * rotationSpeed`, once per call. -/
def rotatedBy (rotationSpeed : R) (ds : List R) (z : R) : R :=
  ds.foldl (fun a d => jsAdd a (jsMul d rotationSpeed)) z

/-- The terrain after the first `n` iterations of the loop of `update`. -/
def loopState (M : JSMath R) (t : Terrain R) (n : Nat) : Terrain R :=
  { t with
    position :=
      (List.zipWith (moved M) t.originalPositions t.waves).take n ++ t.position.drop n
    waves := (t.waves.map advanced).take n ++ t.waves.drop n }

/-- The terrain after a whole call `update(delta)`. -/
def updated (M : JSMath R) (t : Terrain R) (delta : R) : Terrain R :=
  { t with
    position := List.zipWith (moved M) t.originalPositions t.waves
    waves := t.waves.map advanced
    needsUpdate := true
    mesh := { t.mesh with
      rotation := { t.mesh.rotation with
        z := jsAdd t.mesh.rotation.z (jsMul delta t.rotationSpeed) } } }

/-- Every current vertex has the `z` of its original position. -/
def ZKept (t : Terrain R) : Prop :=
  t.position.map (fun p => p.z) = t.originalPositions.map (fun p => p.z)

/-- Every current vertex has the binary32 rounding of the `z` of its
original position. -/
def ZRounded (t : Terrain R) : Prop :=
  t.position.map (fun p => p.z) = t.originalPositions.map (fun p => fround p.z)

/-- The `z` of every original position is a binary32 value. -/
def Float32Originals (t : Terrain R) : Prop :=
  ∀ p ∈ t.originalPositions, fround p.z = p.z

/-- The arrays of a terrain have one entry per vertex. -/
def Terrain.WellFormed (t : Terrain R) : Prop :=
  t.originalPositions.length = t.position.length ∧
  t.waves.length = t.position.length

/-- A surface of one vertex whose current position is its original
position, with the default configuration and a fresh mesh. -/
def oneVertexTerrain (orig : Vector3 R) (wave : Wave R) : Terrain R :=
  { radius := 600
    height := 800
    radialSegments := 40
    heightSegments := 10
    rotationSpeed := toDouble 0.01
    position := [orig]
    needsUpdate := false
    waves := [wave]
    originalPositions := [orig]
    mesh :=
      { position := Vector3.mk 0 (-600) 0
        rotation := Euler.mk 0 0 0
        receiveShadow := true } }

/-- The one-vertex surface of the scenario: original and current position
`(10, 0, 5)`, wave `{ang: 0, amp: 3, speed: 0.001}`. -/
def scenarioTerrain (R : Type) [LinearOrderedField R] [FloorRing R] : Terrain R :=
  oneVertexTerrain (Vector3.mk 10 0 5) (Wave.mk 0 3 (toDouble 0.001))

end TerrainCode

/-! ## `player.js` -/

/-- An object added to `playerGroup` by `player.js`: the spot light and its
target, the camera, the loaded model (`gltf.scene`), or the fallback box
`new Mesh(new BoxGeometry(w, h, d), new MeshStandardMaterial(color))`. -/
inductive GroupChild (R Obj : Type) where
  | spotLight : GroupChild R Obj
  | spotLightTarget : GroupChild R Obj
  | camera : GroupChild R Obj
  | model : Obj → GroupChild R Obj
  | fallbackMesh : (w h d : R) → (color : Nat) → GroupChild R Obj
deriving DecidableEq, Repr

/-- A three.js `AnimationMixer` as `player.js` uses it: the object it
animates and the clips whose action has been started with `play()`. -/
structure AnimationMixer (Obj Clip : Type) where
  root : Obj
  playing : List Clip
deriving DecidableEq, Repr

/-- The argument of the success callback of `GLTFLoader.load`;
`animations` is `none` when the bundle has no clip list. -/
structure Gltf (Obj Clip : Type) where
  scene : Obj
  animations : Option (List Clip)

/-- The `options` argument of `new Player(scene, camera, terrain, options)`. -/
structure PlayerOptions (R : Type) where
  speed : Option R := none
  cameraOffset : Option (Vector3 R) := none

/-- A `Player` instance: `children`, `groupPosition` and `groupRotation`
are those of `this.playerGroup`, `cameraPosition` is `this.camera.position`
and `loadsStarted` counts the calls of `loader.load`. -/
structure Player (R Obj Clip : Type) where
  speed : R
  theta : R
  children : List (GroupChild R Obj)
  groupPosition : Vector3 R
  groupRotation : Euler R
  cameraOffset : Vector3 R
  cameraPosition : Vector3 R
  playerMixer : Option (AnimationMixer Obj Clip)
  loadsStarted : Nat
deriving DecidableEq, Repr

section PlayerCode

variable {R Obj Clip : Type} [LinearOrderedField R] [FloorRing R]

/-- The constructor `new Player(scene, camera, terrain, options)`
(player.js 22-56); it calls `loadModel()` once, which only starts the
asynchronous load (player.js 62-65). -/
def Player.constructor (M : JSMath R) (options : PlayerOptions R) : Player R Obj Clip :=
  let cameraOffset :=
    match options.cameraOffset with
    | some v => v
    | none => Vector3.mk 0 5 (-10)
  { speed := orDefault options.speed 2.0
    theta := 0
    children := [GroupChild.spotLight, GroupChild.spotLightTarget, GroupChild.camera]
    groupPosition := Vector3.mk 0 0 0
    groupRotation := Euler.mk 0 (jsDiv (mathPI M) 2) 0
    cameraOffset := cameraOffset
    cameraPosition := cameraOffset
    playerMixer := none
    loadsStarted := 1 }

/-- The success callback of `loadModel` (player.js 66-82). -/
def Player.onLoad (p : Player R Obj Clip) (gltf : Gltf Obj Clip) : Player R Obj Clip :=
  let object := gltf.scene
  let playerMixer : AnimationMixer Obj Clip := { root := object, playing := [] }
  let playerMixer :=
    match gltf.animations with
    | some animations =>
      if h : animations.length > 6 then
        { playerMixer with playing := playerMixer.playing ++ [animations[6]] }
      else playerMixer
    | none => playerMixer
  { p with
    playerMixer := some playerMixer
    children := p.children ++ [GroupChild.model object] }

/-- The error callback of `loadModel` (player.js 84-91). -/
def Player.onError (p : Player R Obj Clip) : Player R Obj Clip :=
  { p with children := p.children ++ [GroupChild.fallbackMesh 1 2 1 0x00ff00] }

/-- `Player.update(delta)` (player.js 101-106); `mixerUpdate` stands for
the three.js method `AnimationMixer.update`. -/
def Player.update (mixerUpdate : AnimationMixer Obj Clip → R → AnimationMixer Obj Clip)
    (p : Player R Obj Clip) (delta : R) : Player R Obj Clip :=
  match p.playerMixer with
  | some mixer => { p with playerMixer := some (mixerUpdate mixer delta) }
  | none => p

end PlayerCode


/-! ## Rounding to nearest, ties to even -/

section PowersOfTwo

variable {R : Type} [LinearOrderedField R]

theorem two_zpow_pos (e : ℤ) : (0 : R) < (2 : R) ^ e :=
  zpow_pos (by norm_num) e

theorem zpow_sub_mul_pow (e : ℤ) (q : ℕ) : (2 : R) ^ (e - (q : ℤ)) * (2 : R) ^ q = (2 : R) ^ e := by
  rw [← zpow_natCast, ← zpow_add₀ (two_ne_zero)]
  congr 1
  omega

end PowersOfTwo

section Rounding

variable {R : Type} [LinearOrderedField R] [FloorRing R]

theorem roundHalfEven_near (y : R) : |y - (roundHalfEven y : R)| ≤ 1 / 2 := by
  have h1 := Int.floor_le y
  have h2 := Int.lt_floor_add_one y
  rw [abs_le]
  unfold roundHalfEven
  simp only []
  split_ifs <;> push_cast <;> constructor <;> linarith

theorem roundHalfEven_eq_of_near (y : R) (n : ℤ) (h : |y - (n : R)| < 1 / 2) :
    roundHalfEven y = n := by
  have h1 := roundHalfEven_near y
  rw [abs_le] at h1
  rw [abs_lt] at h
  have a : ((roundHalfEven y : ℤ) : R) < (n : R) + 1 := by linarith [h1.1, h1.2, h.1, h.2]
  have b : (n : R) < ((roundHalfEven y : ℤ) : R) + 1 := by linarith [h1.1, h1.2, h.1, h.2]
  have a2 : roundHalfEven y < n + 1 := by exact_mod_cast a
  have b2 : n < roundHalfEven y + 1 := by exact_mod_cast b
  omega

theorem roundHalfEven_tie (y : R) (f : ℤ) (h : y - (f : R) = 1 / 2) :
    roundHalfEven y = if f % 2 = 0 then f else f + 1 := by
  have hf : ⌊y⌋ = f := by
    rw [Int.floor_eq_iff]
    constructor <;> linarith
  unfold roundHalfEven
  simp only [hf, h, lt_irrefl, if_false]

theorem roundHalfEven_intCast (n : ℤ) : roundHalfEven (n : R) = n :=
  roundHalfEven_eq_of_near _ n (by simp)

theorem roundHalfEven_mono {y z : R} (h : y ≤ z) : roundHalfEven y ≤ roundHalfEven z := by
  by_contra hc
  have hc2 : roundHalfEven z + 1 ≤ roundHalfEven y := by omega
  have hc3 : ((roundHalfEven z : ℤ) : R) + 1 ≤ (roundHalfEven y : R) := by exact_mod_cast hc2
  have h1 := roundHalfEven_near y
  have h2 := roundHalfEven_near z
  rw [abs_le] at h1 h2
  have e : y = z := by linarith [h1.1, h1.2, h2.1, h2.2]
  subst e
  omega

theorem log_eq_of_bounds {x : R} {e : ℤ} (h1 : (2 : R) ^ e ≤ x) (h2 : x < (2 : R) ^ (e + 1)) :
    Int.log 2 x = e := by
  have hx : 0 < x := lt_of_lt_of_le (two_zpow_pos e) h1
  have a : e ≤ Int.log 2 x :=
    (Int.zpow_le_iff_le_log (by norm_num) hx).1 (by simpa using h1)
  have b : Int.log 2 x < e + 1 :=
    (Int.lt_zpow_iff_log_lt (by norm_num) hx).1 (by simpa using h2)
  omega

theorem log_bounds {x : R} (hx : 0 < x) :
    (2 : R) ^ Int.log 2 x ≤ x ∧ x < (2 : R) ^ (Int.log 2 x + 1) := by
  have a := Int.zpow_log_le_self (b := 2) (by norm_num) hx
  have b := Int.lt_zpow_succ_log_self (b := 2) (by norm_num) x
  exact ⟨by simpa using a, by simpa using b⟩

theorem roundPos_eq {q : ℕ} {x : R} {e n : ℤ} (h1 : (2 : R) ^ e ≤ x)
    (h2 : x < (2 : R) ^ (e + 1)) (hn : |x / (2 : R) ^ (e - (q : ℤ)) - (n : R)| < 1 / 2) :
    roundPos q x = (n : R) * (2 : R) ^ (e - (q : ℤ)) := by
  unfold roundPos ulp
  rw [log_eq_of_bounds h1 h2, roundHalfEven_eq_of_near _ n hn]

theorem scaled_bounds (q : ℕ) {x : R} (hx : 0 < x) :
    ((2 ^ q : ℤ) : R) ≤ x / ulp q x ∧ x / ulp q x ≤ ((2 ^ (q + 1) : ℤ) : R) := by
  obtain ⟨a, b⟩ := log_bounds hx
  have hu : (0 : R) < ulp q x := two_zpow_pos _
  have e1 : ulp q x * (2 : R) ^ q = (2 : R) ^ Int.log 2 x := zpow_sub_mul_pow _ q
  have e2 : ulp q x * (2 : R) ^ (q + 1) = (2 : R) ^ (Int.log 2 x + 1) := by
    rw [pow_succ, ← mul_assoc, e1, zpow_add_one₀ two_ne_zero]
  push_cast
  constructor
  · rw [le_div_iff₀ hu, mul_comm, e1]
    exact a
  · rw [div_le_iff₀ hu, mul_comm, e2]
    exact le_of_lt b

theorem roundHalfEven_scaled_bounds (q : ℕ) {x : R} (hx : 0 < x) :
    (2 ^ q : ℤ) ≤ roundHalfEven (x / ulp q x) ∧
      roundHalfEven (x / ulp q x) ≤ (2 ^ (q + 1) : ℤ) := by
  obtain ⟨a, b⟩ := scaled_bounds q hx
  have a2 := roundHalfEven_mono a
  have b2 := roundHalfEven_mono b
  rw [roundHalfEven_intCast] at a2 b2
  exact ⟨a2, b2⟩

theorem roundPos_bounds (q : ℕ) {x : R} (hx : 0 < x) :
    (2 : R) ^ Int.log 2 x ≤ roundPos q x ∧ roundPos q x ≤ (2 : R) ^ (Int.log 2 x + 1) := by
  obtain ⟨a, b⟩ := roundHalfEven_scaled_bounds (R := R) q hx
  have hu : (0 : R) < ulp q x := two_zpow_pos _
  have e1 : ulp q x * (2 : R) ^ q = (2 : R) ^ Int.log 2 x := zpow_sub_mul_pow _ q
  have e2 : ulp q x * (2 : R) ^ (q + 1) = (2 : R) ^ (Int.log 2 x + 1) := by
    rw [pow_succ, ← mul_assoc, e1, zpow_add_one₀ two_ne_zero]
  have a3 : ((2 : R) ^ q) ≤ (roundHalfEven (x / ulp q x) : R) := by exact_mod_cast a
  have b3 : (roundHalfEven (x / ulp q x) : R) ≤ (2 : R) ^ (q + 1) := by exact_mod_cast b
  unfold roundPos
  constructor
  · rw [← e1, mul_comm]
    exact mul_le_mul_of_nonneg_right a3 (le_of_lt hu)
  · rw [← e2, mul_comm (ulp q x)]
    exact mul_le_mul_of_nonneg_right b3 (le_of_lt hu)

theorem roundPos_pos (q : ℕ) {x : R} (hx : 0 < x) : 0 < roundPos q x :=
  lt_of_lt_of_le (two_zpow_pos _) (roundPos_bounds q hx).1

theorem roundPos_mono (q : ℕ) {x y : R} (hx : 0 < x) (h : x ≤ y) :
    roundPos q x ≤ roundPos q y := by
  have hy : 0 < y := lt_of_lt_of_le hx h
  have hl : Int.log 2 x ≤ Int.log 2 y := Int.log_mono_right hx h
  rcases eq_or_lt_of_le hl with he | hlt
  · have hu : ulp q x = ulp q y := by unfold ulp; rw [he]
    have hup : (0 : R) < ulp q y := two_zpow_pos _
    unfold roundPos
    rw [hu]
    apply mul_le_mul_of_nonneg_right _ (le_of_lt hup)
    have : roundHalfEven (x / ulp q y) ≤ roundHalfEven (y / ulp q y) :=
      roundHalfEven_mono (div_le_div_of_nonneg_right h (le_of_lt hup))
    exact_mod_cast this
  · have a := (roundPos_bounds q hx).2
    have b := (roundPos_bounds q hy).1
    have c : (2 : R) ^ (Int.log 2 x + 1) ≤ (2 : R) ^ Int.log 2 y :=
      zpow_le_zpow_right₀ (by norm_num) (by omega)
    linarith

theorem roundPos_fixed (q : ℕ) (n e : ℤ) (h1 : (2 ^ q : ℤ) ≤ n) (h2 : n ≤ (2 ^ (q + 1) : ℤ)) :
    roundPos q ((n : R) * (2 : R) ^ (e - (q : ℤ))) = (n : R) * (2 : R) ^ (e - (q : ℤ)) := by
  have hu : (0 : R) < (2 : R) ^ (e - (q : ℤ)) := two_zpow_pos _
  have e1 : (2 : R) ^ (e - (q : ℤ)) * (2 : R) ^ q = (2 : R) ^ e := zpow_sub_mul_pow _ q
  have a3 : ((2 : R) ^ q) ≤ (n : R) := by exact_mod_cast h1
  rcases eq_or_lt_of_le h2 with he | hlt
  · have hval : (n : R) * (2 : R) ^ (e - (q : ℤ)) = (2 : R) ^ (e + 1) := by
      rw [he, zpow_add_one₀ two_ne_zero, ← e1]
      push_cast
      ring
    have hval2 : (((2 ^ q : ℤ) : ℤ) : R) * (2 : R) ^ (e + 1 - (q : ℤ)) = (2 : R) ^ (e + 1) := by
      push_cast
      rw [mul_comm]
      exact zpow_sub_mul_pow _ q
    rw [hval]
    rw [roundPos_eq (q := q) (n := (2 ^ q : ℤ)) (le_refl _)
      (zpow_lt_zpow_right₀ (by norm_num) (by omega)) ?_, hval2]
    rw [← hval2, mul_div_assoc, div_self (ne_of_gt (two_zpow_pos _))]
    simp
  · have b3 : (n : R) + 1 ≤ (2 : R) ^ (q + 1) := by exact_mod_cast (by omega : n + 1 ≤ 2 ^ (q + 1))
    have e2 : (2 : R) ^ (e - (q : ℤ)) * (2 : R) ^ (q + 1) = (2 : R) ^ (e + 1) := by
      rw [pow_succ, ← mul_assoc, e1, zpow_add_one₀ two_ne_zero]
    apply roundPos_eq
    · rw [← e1, mul_comm]
      exact mul_le_mul_of_nonneg_right a3 (le_of_lt hu)
    · rw [← e2, mul_comm ((2 : R) ^ (e - (q : ℤ)))]
      apply mul_lt_mul_of_pos_right _ hu
      linarith
    · rw [mul_div_assoc, div_self (ne_of_gt hu)]
      simp

theorem roundPos_idem (q : ℕ) {x : R} (hx : 0 < x) :
    roundPos q (roundPos q x) = roundPos q x := by
  obtain ⟨a, b⟩ := roundHalfEven_scaled_bounds (R := R) q hx
  exact roundPos_fixed q _ (Int.log 2 x) a b

theorem roundTo_zero (q : ℕ) : roundTo q (0 : R) = 0 := by
  simp [roundTo]

theorem roundTo_of_pos (q : ℕ) {x : R} (hx : 0 < x) : roundTo q x = roundPos q x := by
  simp [roundTo, ne_of_gt hx, not_lt_of_gt hx]

theorem roundTo_of_neg (q : ℕ) {x : R} (hx : x < 0) : roundTo q x = -roundPos q (-x) := by
  simp [roundTo, ne_of_lt hx, hx]

theorem roundTo_pos (q : ℕ) {x : R} (hx : 0 < x) : 0 < roundTo q x := by
  rw [roundTo_of_pos q hx]
  exact roundPos_pos q hx

theorem roundTo_nonneg (q : ℕ) {x : R} (hx : 0 ≤ x) : 0 ≤ roundTo q x := by
  rcases eq_or_lt_of_le hx with h | h
  · rw [← h, roundTo_zero]
  · exact le_of_lt (roundTo_pos q h)

theorem roundTo_idem (q : ℕ) (x : R) : roundTo q (roundTo q x) = roundTo q x := by
  rcases lt_trichotomy x 0 with h | h | h
  · have hp : 0 < roundPos q (-x) := roundPos_pos q (by linarith)
    rw [roundTo_of_neg q h, roundTo_of_neg q (by linarith), neg_neg,
      roundPos_idem q (by linarith)]
  · rw [h, roundTo_zero, roundTo_zero]
  · rw [roundTo_of_pos q h, roundTo_of_pos q (roundPos_pos q h), roundPos_idem q h]

theorem roundTo_mono (q : ℕ) {x y : R} (hx : 0 ≤ x) (h : x ≤ y) :
    roundTo q x ≤ roundTo q y := by
  rcases eq_or_lt_of_le hx with h0 | h0
  · rw [← h0, roundTo_zero]
    exact roundTo_nonneg q (le_trans hx h)
  · rw [roundTo_of_pos q h0, roundTo_of_pos q (lt_of_lt_of_le h0 h)]
    exact roundPos_mono q h0 h

theorem roundTo_eq {q : ℕ} {x : R} (e n : ℤ) (h1 : (2 : R) ^ e ≤ x)
    (h2 : x < (2 : R) ^ (e + 1)) (hn : |x / (2 : R) ^ (e - (q : ℤ)) - (n : R)| < 1 / 2) :
    roundTo q x = (n : R) * (2 : R) ^ (e - (q : ℤ)) := by
  rw [roundTo_of_pos q (lt_of_lt_of_le (two_zpow_pos e) h1)]
  exact roundPos_eq h1 h2 hn

theorem roundTo_eq_tie {q : ℕ} {x : R} (e f : ℤ) (h1 : (2 : R) ^ e ≤ x)
    (h2 : x < (2 : R) ^ (e + 1)) (hn : x / (2 : R) ^ (e - (q : ℤ)) - (f : R) = 1 / 2) :
    roundTo q x = ((if f % 2 = 0 then f else f + 1 : ℤ) : R) * (2 : R) ^ (e - (q : ℤ)) := by
  rw [roundTo_of_pos q (lt_of_lt_of_le (two_zpow_pos e) h1)]
  unfold roundPos ulp
  rw [log_eq_of_bounds h1 h2, roundHalfEven_tie _ f hn]

theorem le_pred_of_fixed_lt_one (q : ℕ) {r : R} (hfix : roundTo q r = r)
    (h1 : r < 1) : r ≤ 1 - (2 : R) ^ (-((q : ℤ) + 1)) := by
  have hs : (2 : R) ^ (-((q : ℤ) + 1)) * (2 : R) ^ (q + 1) = 1 := by
    rw [← zpow_natCast, ← zpow_add₀ two_ne_zero]
    have : -((q : ℤ) + 1) + ((q + 1 : ℕ) : ℤ) = 0 := by push_cast; ring
    rw [this, zpow_zero]
  have hsmall : (2 : R) ^ (-((q : ℤ) + 1)) ≤ 1 / 2 := by
    have : (2 : R) ^ (-((q : ℤ) + 1)) ≤ (2 : R) ^ (-1 : ℤ) :=
      zpow_le_zpow_right₀ (by norm_num) (by omega)
    simpa using this
  rcases le_or_lt r (1 / 2) with hh | hh
  · linarith
  · have hr : 0 < r := by linarith
    have hlog : Int.log 2 r = -1 := by
      apply log_eq_of_bounds
      · simpa using le_of_lt hh
      · simpa using h1
    have hu : ulp q r = (2 : R) ^ (-((q : ℤ) + 1)) := by
      unfold ulp
      rw [hlog]
      congr 1
      ring
    obtain ⟨_, b⟩ := roundHalfEven_scaled_bounds (R := R) q hr
    rw [roundTo_of_pos q hr] at hfix
    unfold roundPos at hfix
    rw [hu] at hfix b
    have hup : (0 : R) < (2 : R) ^ (-((q : ℤ) + 1)) := two_zpow_pos _
    have hne : roundHalfEven (r / (2 : R) ^ (-((q : ℤ) + 1))) ≠ (2 ^ (q + 1) : ℤ) := by
      intro he
      rw [he] at hfix
      push_cast at hfix
      rw [mul_comm, hs] at hfix
      linarith
    have hle : roundHalfEven (r / (2 : R) ^ (-((q : ℤ) + 1))) + 1 ≤ (2 ^ (q + 1) : ℤ) := by
      omega
    have hle2 : ((roundHalfEven (r / (2 : R) ^ (-((q : ℤ) + 1))) : ℤ) : R) + 1
        ≤ (2 : R) ^ (q + 1) := by exact_mod_cast hle
    have := mul_le_mul_of_nonneg_right hle2 (le_of_lt hup)
    rw [add_mul, hfix, one_mul, mul_comm ((2 : R) ^ (q + 1)), hs] at this
    linarith

end Rounding

/-! ## Laws of the JavaScript arithmetic -/

section ArithmeticLemmas

variable {R : Type} [LinearOrderedField R] [FloorRing R]

theorem toDouble_zero : toDouble (0 : R) = 0 :=
  roundTo_zero 52

theorem toDouble_idem (x : R) : toDouble (toDouble x) = toDouble x :=
  roundTo_idem 52 x

theorem toDouble_mono {x y : R} (hx : 0 ≤ x) (h : x ≤ y) : toDouble x ≤ toDouble y :=
  roundTo_mono 52 hx h

theorem toDouble_nonneg {x : R} (hx : 0 ≤ x) : 0 ≤ toDouble x :=
  roundTo_nonneg 52 hx

theorem toDouble_pos {x : R} (hx : 0 < x) : 0 < toDouble x :=
  roundTo_pos 52 hx

theorem fround_zero : fround (0 : R) = 0 :=
  roundTo_zero 23

theorem fround_idem (x : R) : fround (fround x) = fround x :=
  roundTo_idem 23 x

theorem fround_pos {x : R} (hx : 0 < x) : 0 < fround x :=
  roundTo_pos 23 hx

theorem jsMul_zero_left (x : R) : jsMul 0 x = 0 := by
  simp [jsMul, toDouble_zero]

theorem jsAdd_zero_right {x : R} (hx : toDouble x = x) : jsAdd x 0 = x := by
  simp [jsAdd, hx]

theorem jsAdd_zero_left {x : R} (hx : toDouble x = x) : jsAdd 0 x = x := by
  simp [jsAdd, hx]

theorem jsMul_one_left {x : R} (hx : toDouble x = x) : jsMul 1 x = x := by
  simp [jsMul, hx]

theorem toDouble_jsAdd (x y : R) : toDouble (jsAdd x y) = jsAdd x y :=
  toDouble_idem _

theorem toDouble_jsMul (x y : R) : toDouble (jsMul x y) = jsMul x y :=
  toDouble_idem _

end ArithmeticLemmas

/-! ## Closed form of `update` -/

theorem set_take_append_drop {α : Type} (A B : List α) (n : Nat) (a : α)
    (hA : A[n]? = some a) (hB : n < B.length) :
    (A.take n ++ B.drop n).set n a = A.take (n + 1) ++ B.drop (n + 1) := by
  have hlt : n < A.length := by
    rcases Nat.lt_or_ge n A.length with h | h
    · exact h
    · rw [List.getElem?_eq_none h] at hA
      cases hA
  apply List.ext_getElem?
  intro j
  rw [List.getElem?_set]
  rcases Nat.lt_trichotomy j n with h | h | h
  · have h1 : ¬ n = j := by omega
    simp only [h1, if_false]
    rw [List.getElem?_append_left (by simp; omega),
      List.getElem?_append_left (by simp; omega)]
    rw [List.getElem?_take_of_lt h, List.getElem?_take_of_lt (by omega)]
  · subst h
    simp only [if_true]
    have h2 : j < (List.take j A ++ List.drop j B).length := by simp; omega
    simp only [h2, if_true]
    rw [List.getElem?_append_left (by simp; omega)]
    rw [List.getElem?_take_of_lt (by omega), hA]
  · have h1 : ¬ n = j := by omega
    simp only [h1, if_false]
    rw [List.getElem?_append_right (by simp; omega),
      List.getElem?_append_right (by simp; omega)]
    simp only [List.length_take, List.getElem?_drop]
    congr 1
    omega

theorem zKept_getElem {R : Type} (t : Terrain R) (h : ZKept t) (i : Nat) (cur : Vector3 R)
    (hc : t.position[i]? = some cur) :
    ∃ orig, t.originalPositions[i]? = some orig ∧ cur.z = orig.z := by
  have e := congrArg (fun l => l[i]?) h
  simp only [List.getElem?_map, hc, Option.map_some'] at e
  cases ho : t.originalPositions[i]? with
  | none => rw [ho] at e; cases e
  | some orig =>
    rw [ho] at e
    exact ⟨orig, rfl, by simpa using e⟩

section TerrainLemmas

variable {R : Type} [LinearOrderedField R] [FloorRing R]

theorem loopState_zero (M : JSMath R) (t : Terrain R) : loopState M t 0 = t := by
  simp [loopState]

theorem updateVertex_loopState (M : JSMath R) (t : Terrain R) (n : Nat)
    (hwf : t.WellFormed) (hn : n < t.position.length) :
    updateVertex M (loopState M t n) n = some (loopState M t (n + 1)) := by
  obtain ⟨ho, hw⟩ := hwf
  have hno : n < t.originalPositions.length := by omega
  have hnw : n < t.waves.length := by omega
  have e1 : (loopState M t n).originalPositions[n]? = some t.originalPositions[n] := by
    simp [loopState, List.getElem?_eq_getElem hno]
  have e2 : (loopState M t n).waves[n]? = some t.waves[n] := by
    simp only [loopState]
    rw [List.getElem?_append_right (by simp)]
    simp [List.getElem?_drop, Nat.min_eq_left (Nat.le_of_lt hnw),
      List.getElem?_eq_getElem hnw]
  unfold updateVertex
  rw [e1, e2]
  simp only [loopState, Option.some.injEq]
  have p1 := set_take_append_drop
    (List.zipWith (moved M) t.originalPositions t.waves) t.position n
    (moved M t.originalPositions[n] t.waves[n])
    (by simp [List.getElem?_zipWith, List.getElem?_eq_getElem hno,
          List.getElem?_eq_getElem hnw]) hn
  have p2 := set_take_append_drop (t.waves.map advanced) t.waves n
    (advanced t.waves[n])
    (by simp [List.getElem?_map, List.getElem?_eq_getElem hnw]) hnw
  simp only [moved] at p1
  simp only [advanced] at p2
  rw [p1, p2]

theorem foldlM_updateVertex (M : JSMath R) (t : Terrain R) (hwf : t.WellFormed) :
    ∀ n, n ≤ t.position.length →
      (List.range n).foldlM (updateVertex M) t = some (loopState M t n) := by
  intro n
  induction n with
  | zero => intro _; simp [loopState_zero]
  | succ k ih =>
    intro hk
    rw [List.range_succ, List.foldlM_append, ih (by omega)]
    simp [updateVertex_loopState M t k hwf (by omega)]

theorem update_eq (M : JSMath R) (t : Terrain R) (delta : R) (hwf : t.WellFormed) :
    t.update M delta = some (updated M t delta) := by
  unfold Terrain.update
  simp only []
  rw [foldlM_updateVertex M t hwf _ (Nat.le_refl _)]
  obtain ⟨ho, hw⟩ := hwf
  simp only [Option.map_some', loopState, updated, Option.some.injEq]
  have a1 : (List.zipWith (moved M) t.originalPositions t.waves).length
      = t.position.length := by simp [ho, hw]
  have a2 : (t.waves.map advanced).length = t.position.length := by simp [hw]
  rw [← a1, List.take_length, a1, List.drop_length, List.append_nil]
  rw [← a2, List.take_length, a2, ← hw, List.drop_length, List.append_nil]

theorem updated_wellFormed (M : JSMath R) (t : Terrain R) (delta : R)
    (hwf : t.WellFormed) : (updated M t delta).WellFormed := by
  obtain ⟨ho, hw⟩ := hwf
  simp [Terrain.WellFormed, updated, ho, hw]

/-! ## Repeated updates -/

theorem updates_eq (M : JSMath R) (ds : List R) :
    ∀ t : Terrain R, t.WellFormed → t.updates M ds = some (ds.foldl (updated M) t) := by
  induction ds with
  | nil => intro t _; rfl
  | cons d ds ih =>
    intro t hwf
    simp only [Terrain.updates, update_eq M t d hwf, Option.some_bind, List.foldl_cons]
    exact ih _ (updated_wellFormed M t d hwf)

theorem foldl_updated_waves (M : JSMath R) (ds : List R) :
    ∀ t : Terrain R, (ds.foldl (updated M) t).waves = t.waves.map (advancedBy ds.length) := by
  induction ds with
  | nil =>
    intro t
    simp only [List.foldl_nil, List.length_nil]
    conv_lhs => rw [← List.map_id t.waves]
    apply List.map_congr_left
    intro w _
    simp [advancedBy]
  | cons d ds ih =>
    intro t
    rw [List.foldl_cons, ih]
    simp only [updated, List.map_map, List.length_cons]
    apply List.map_congr_left
    intro w _
    simp only [Function.comp, advancedBy, advanced, Function.iterate_succ_apply]

theorem foldl_updated_fixed (M : JSMath R) (ds : List R) :
    ∀ t : Terrain R,
      (ds.foldl (updated M) t).originalPositions = t.originalPositions ∧
      (ds.foldl (updated M) t).rotationSpeed = t.rotationSpeed ∧
      (ds.foldl (updated M) t).radius = t.radius ∧
      (ds.foldl (updated M) t).height = t.height ∧
      (ds.foldl (updated M) t).radialSegments = t.radialSegments ∧
      (ds.foldl (updated M) t).heightSegments = t.heightSegments := by
  induction ds with
  | nil => intro t; simp
  | cons d ds ih =>
    intro t
    rw [List.foldl_cons]
    have h := ih (updated M t d)
    simpa [updated] using h

theorem foldl_updated_mesh (M : JSMath R) (ds : List R) :
    ∀ t : Terrain R,
      (ds.foldl (updated M) t).mesh =
        { t.mesh with
          rotation := { t.mesh.rotation with
            z := rotatedBy t.rotationSpeed ds t.mesh.rotation.z } } := by
  induction ds with
  | nil => intro t; simp [rotatedBy]
  | cons d ds ih =>
    intro t
    rw [List.foldl_cons, ih]
    simp [updated, rotatedBy]

theorem rotatedBy_zeros (rotationSpeed : R) (n : Nat) {z : R} (hz : toDouble z = z) :
    rotatedBy rotationSpeed (List.replicate n 0) z = z := by
  induction n with
  | zero => rfl
  | succ k ih =>
    rw [List.replicate_succ]
    simp only [rotatedBy, List.foldl_cons, jsMul_zero_left, jsAdd_zero_right hz]
    exact ih

theorem foldl_updated_wellFormed (M : JSMath R) (ds : List R) :
    ∀ t : Terrain R, t.WellFormed → (ds.foldl (updated M) t).WellFormed := by
  induction ds with
  | nil => intro t h; exact h
  | cons d ds ih =>
    intro t h
    rw [List.foldl_cons]
    exact ih _ (updated_wellFormed M t d h)

theorem foldl_updated_length (M : JSMath R) (ds : List R) :
    ∀ t : Terrain R, t.WellFormed →
      (ds.foldl (updated M) t).position.length = t.position.length := by
  induction ds with
  | nil => intro t _; rfl
  | cons d ds ih =>
    intro t h
    rw [List.foldl_cons, ih _ (updated_wellFormed M t d h)]
    obtain ⟨ho, hw⟩ := h
    simp [updated, ho, hw]

theorem updated_zRounded (M : JSMath R) (t : Terrain R) (delta : R)
    (hwf : t.WellFormed) : ZRounded (updated M t delta) := by
  obtain ⟨ho, hw⟩ := hwf
  simp only [ZRounded, updated]
  apply List.ext_getElem?
  intro i
  simp only [List.getElem?_map, List.getElem?_zipWith]
  rcases Nat.lt_or_ge i t.position.length with h | h
  · rw [List.getElem?_eq_getElem (by omega : i < t.originalPositions.length),
      List.getElem?_eq_getElem (by omega : i < t.waves.length)]
    simp [moved, froundVector]
  · rw [List.getElem?_eq_none (by omega : t.originalPositions.length ≤ i)]
    simp

theorem foldl_updated_zRounded (M : JSMath R) (ds : List R) :
    ∀ t : Terrain R, t.WellFormed → ZRounded t → ZRounded (ds.foldl (updated M) t) := by
  induction ds with
  | nil => intro t _ h; exact h
  | cons d ds ih =>
    intro t hwf _
    rw [List.foldl_cons]
    exact ih _ (updated_wellFormed M t d hwf) (updated_zRounded M t d hwf)

theorem zKept_of_zRounded (t : Terrain R) (hz : ZRounded t) (hf : Float32Originals t) :
    ZKept t := by
  unfold ZKept
  unfold ZRounded at hz
  rw [hz]
  apply List.map_congr_left
  intro p hp
  exact hf p hp

theorem foldl_updated_zKept (M : JSMath R) (ds : List R) (t : Terrain R)
    (hwf : t.WellFormed) (hz : ZKept t) (hf : Float32Originals t) :
    ZKept (ds.foldl (updated M) t) := by
  cases ds with
  | nil => exact hz
  | cons d ds =>
    rw [List.foldl_cons]
    apply zKept_of_zRounded
    · exact foldl_updated_zRounded M ds _ (updated_wellFormed M t d hwf)
        (updated_zRounded M t d hwf)
    · unfold Float32Originals
      rw [(foldl_updated_fixed M ds _).1]
      exact hf

/-! ## The constructor -/

theorem constructorLoop_eq (M : JSMath R) (random : Nat → R) (ps : List (Vector3 R)) :
    ∀ (n : Nat) (ws : List (Wave R)) (os : List (Vector3 R)),
      constructorLoop M random ps n ws os =
        (ws ++ (List.range ps.length).map (fun j => newWave M random (n + 3 * j)),
          os ++ ps) := by
  induction ps with
  | nil => intro n ws os; simp [constructorLoop]
  | cons p rest ih =>
    intro n ws os
    simp only [constructorLoop, ih, List.length_cons, List.range_succ_eq_map,
      List.map_cons, List.map_map, List.append_assoc, List.singleton_append,
      Nat.mul_zero, Nat.add_zero, Prod.mk.injEq, and_true]
    congr 2
    apply List.map_congr_left
    intro j _
    simp only [Function.comp]
    congr 1
    omega

theorem constructor_waves (M : JSMath R) (cylinder : R → R → R → R → List (Vector3 R))
    (random : Nat → R) (options : TerrainOptions R) :
    (Terrain.constructor M cylinder random options).waves =
      (List.range (Terrain.constructor M cylinder random options).position.length).map
        (fun j => newWave M random (3 * j)) := by
  simp [Terrain.constructor, constructorLoop_eq]

theorem constructor_originalPositions (M : JSMath R)
    (cylinder : R → R → R → R → List (Vector3 R))
    (random : Nat → R) (options : TerrainOptions R) :
    (Terrain.constructor M cylinder random options).originalPositions =
      (Terrain.constructor M cylinder random options).position := by
  simp [Terrain.constructor, constructorLoop_eq]

theorem constructor_wellFormed (M : JSMath R)
    (cylinder : R → R → R → R → List (Vector3 R))
    (random : Nat → R) (options : TerrainOptions R) :
    (Terrain.constructor M cylinder random options).WellFormed := by
  constructor
  · rw [constructor_originalPositions]
  · rw [constructor_waves]; simp

theorem constructor_zKept (M : JSMath R) (cylinder : R → R → R → R → List (Vector3 R))
    (random : Nat → R) (options : TerrainOptions R) :
    ZKept (Terrain.constructor M cylinder random options) := by
  unfold ZKept
  rw [constructor_originalPositions]

theorem constructor_float32Originals (M : JSMath R)
    (cylinder : R → R → R → R → List (Vector3 R))
    (random : Nat → R) (options : TerrainOptions R) :
    Float32Originals (Terrain.constructor M cylinder random options) := by
  unfold Float32Originals
  rw [constructor_originalPositions]
  intro p hp
  simp only [Terrain.constructor, List.mem_map] at hp
  obtain ⟨v, _, rfl⟩ := hp
  simp [froundVector, fround_idem]

end TerrainLemmas

/-! ## Values of the arithmetic at the inputs of the evaluations -/

section Evaluations

variable {R : Type} [LinearOrderedField R] [FloorRing R]

theorem toDouble_one : toDouble (1 : R) = 1 := by
  have h := roundTo_eq (q := 52) (x := (1 : R)) (0) (4503599627370496)
    (by norm_num) (by norm_num) (by rw [abs_lt]; constructor <;> norm_num)
  unfold toDouble
  rw [h]
  norm_num

theorem toDouble_three : toDouble (3 : R) = 3 := by
  have h := roundTo_eq (q := 52) (x := (3 : R)) (1) (6755399441055744)
    (by norm_num) (by norm_num) (by rw [abs_lt]; constructor <;> norm_num)
  unfold toDouble
  rw [h]
  norm_num

theorem toDouble_thirteen : toDouble (13 : R) = 13 := by
  have h := roundTo_eq (q := 52) (x := (13 : R)) (3) (7318349394477056)
    (by norm_num) (by norm_num) (by rw [abs_lt]; constructor <;> norm_num)
  unfold toDouble
  rw [h]
  norm_num

theorem fround_five : fround (5 : R) = 5 := by
  have h := roundTo_eq (q := 23) (x := (5 : R)) (2) (10485760)
    (by norm_num) (by norm_num) (by rw [abs_lt]; constructor <;> norm_num)
  unfold fround
  rw [h]
  norm_num

theorem fround_ten : fround (10 : R) = 10 := by
  have h := roundTo_eq (q := 23) (x := (10 : R)) (3) (10485760)
    (by norm_num) (by norm_num) (by rw [abs_lt]; constructor <;> norm_num)
  unfold fround
  rw [h]
  norm_num

theorem fround_thirteen : fround (13 : R) = 13 := by
  have h := roundTo_eq (q := 23) (x := (13 : R)) (3) (13631488)
    (by norm_num) (by norm_num) (by rw [abs_lt]; constructor <;> norm_num)
  unfold fround
  rw [h]
  norm_num

theorem toDouble_0_001 : toDouble (0.001 : R) = (1152921504606847 / 2 ^ 60) := by
  have h := roundTo_eq (q := 52) (x := (0.001 : R)) (-10) (4611686018427388)
    (by norm_num) (by norm_num) (by rw [abs_lt]; constructor <;> norm_num)
  unfold toDouble
  rw [h]
  norm_num

theorem toDouble_0_0001 : toDouble (0.0001 : R) = (7378697629483821 / 2 ^ 66) := by
  have h := roundTo_eq (q := 52) (x := (0.0001 : R)) (-14) (7378697629483821)
    (by norm_num) (by norm_num) (by rw [abs_lt]; constructor <;> norm_num)
  unfold toDouble
  rw [h]
  norm_num

theorem toDouble_0_0032 : toDouble (0.0032 : R) = (7378697629483821 / 2 ^ 61) := by
  have h := roundTo_eq (q := 52) (x := (0.0032 : R)) (-9) (7378697629483821)
    (by norm_num) (by norm_num) (by rw [abs_lt]; constructor <;> norm_num)
  unfold toDouble
  rw [h]
  norm_num

theorem toDouble_0_0041 : toDouble (0.0041 : R) = (4726978168888073 / 2 ^ 60) := by
  have h := roundTo_eq (q := 52) (x := (0.0041 : R)) (-8) (4726978168888073)
    (by norm_num) (by norm_num) (by rw [abs_lt]; constructor <;> norm_num)
  unfold toDouble
  rw [h]
  norm_num

theorem toDouble_0_0042 : toDouble (0.0042 : R) = (4842270319348757 / 2 ^ 60) := by
  have h := roundTo_eq (q := 52) (x := (0.0042 : R)) (-8) (4842270319348757)
    (by norm_num) (by norm_num) (by rw [abs_lt]; constructor <;> norm_num)
  unfold toDouble
  rw [h]
  norm_num

theorem toDouble_3_0001 : toDouble (3.0001 : R) = (6755624621037113 / 2 ^ 51) := by
  have h := roundTo_eq (q := 52) (x := (3.0001 : R)) (1) (6755624621037113)
    (by norm_num) (by norm_num) (by rw [abs_lt]; constructor <;> norm_num)
  unfold toDouble
  rw [h]
  norm_num

theorem toDouble_3_00005 : toDouble (3.00005 : R) = (1688878007761607 / 2 ^ 49) := by
  have h := roundTo_eq (q := 52) (x := (3.00005 : R)) (1) (6755512031046428)
    (by norm_num) (by norm_num) (by rw [abs_lt]; constructor <;> norm_num)
  unfold toDouble
  rw [h]
  norm_num

theorem toDouble_0_01 : toDouble (0.01 : R) = (5764607523034235 / 2 ^ 59) := by
  have h := roundTo_eq (q := 52) (x := (0.01 : R)) (-7) (5764607523034235)
    (by norm_num) (by norm_num) (by rw [abs_lt]; constructor <;> norm_num)
  unfold toDouble
  rw [h]
  norm_num

theorem toDouble_0_2 : toDouble (0.2 : R) = (3602879701896397 / 2 ^ 54) := by
  have h := roundTo_eq (q := 52) (x := (0.2 : R)) (-3) (7205759403792794)
    (by norm_num) (by norm_num) (by rw [abs_lt]; constructor <;> norm_num)
  unfold toDouble
  rw [h]
  norm_num

theorem toDouble_0_1 : toDouble (0.1 : R) = (3602879701896397 / 2 ^ 55) := by
  have h := roundTo_eq (q := 52) (x := (0.1 : R)) (-4) (7205759403792794)
    (by norm_num) (by norm_num) (by rw [abs_lt]; constructor <;> norm_num)
  unfold toDouble
  rw [h]
  norm_num

theorem toDouble_0_99 : toDouble (0.99 : R) = (4458563631096791 / 2 ^ 52) := by
  have h := roundTo_eq (q := 52) (x := (0.99 : R)) (-1) (8917127262193582)
    (by norm_num) (by norm_num) (by rw [abs_lt]; constructor <;> norm_num)
  unfold toDouble
  rw [h]
  norm_num

theorem toDouble_twice_0_001 : toDouble (2 * (1152921504606847 / 2 ^ 60) : R) = (1152921504606847 / 2 ^ 59) := by
  have h := roundTo_eq (q := 52) (x := (2 * (1152921504606847 / 2 ^ 60) : R)) (-9) (4611686018427388)
    (by norm_num) (by norm_num) (by rw [abs_lt]; constructor <;> norm_num)
  unfold toDouble
  rw [h]
  norm_num

theorem toDouble_ten_add_amp : toDouble (10 + (1688878007761607 / 2 ^ 49) : R) = (7318377541974727 / 2 ^ 49) := by
  have h := roundTo_eq (q := 52) (x := (10 + (1688878007761607 / 2 ^ 49) : R)) (3) (7318377541974727)
    (by norm_num) (by norm_num) (by rw [abs_lt]; constructor <;> norm_num)
  unfold toDouble
  rw [h]
  norm_num

theorem fround_ten_add_amp : fround ((7318377541974727 / 2 ^ 49) : R) = (3407885 / 2 ^ 18) := by
  have h := roundTo_eq (q := 23) (x := ((7318377541974727 / 2 ^ 49) : R)) (3) (13631540)
    (by norm_num) (by norm_num) (by rw [abs_lt]; constructor <;> norm_num)
  unfold fround
  rw [h]
  norm_num

theorem toDouble_0_1_mul_0_01 : toDouble ((3602879701896397 / 2 ^ 55) * (5764607523034235 / 2 ^ 59) : R) = (1152921504606847 / 2 ^ 60) := by
  have h := roundTo_eq (q := 52) (x := ((3602879701896397 / 2 ^ 55) * (5764607523034235 / 2 ^ 59) : R)) (-10) (4611686018427388)
    (by norm_num) (by norm_num) (by rw [abs_lt]; constructor <;> norm_num)
  unfold toDouble
  rw [h]
  norm_num

theorem toDouble_0_6 : toDouble (0.6 : R) = (5404319552844595 / 2 ^ 53) := by
  have h := roundTo_eq (q := 52) (x := (0.6 : R)) (-1) (5404319552844595)
    (by norm_num) (by norm_num) (by rw [abs_lt]; constructor <;> norm_num)
  unfold toDouble
  rw [h]
  norm_num

theorem toDouble_0_6_mul_0_01 : toDouble ((5404319552844595 / 2 ^ 53) * (5764607523034235 / 2 ^ 59) : R) = (3458764513820541 / 2 ^ 59) := by
  have h := roundTo_eq (q := 52) (x := ((5404319552844595 / 2 ^ 53) * (5764607523034235 / 2 ^ 59) : R)) (-8) (6917529027641082)
    (by norm_num) (by norm_num) (by rw [abs_lt]; constructor <;> norm_num)
  unfold toDouble
  rw [h]
  norm_num

theorem toDouble_rotation_sum : toDouble ((1152921504606847 / 2 ^ 60) + (3458764513820541 / 2 ^ 59) : R) = (8070450532247929 / 2 ^ 60) := by
  have h := roundTo_eq (q := 52) (x := ((1152921504606847 / 2 ^ 60) + (3458764513820541 / 2 ^ 59) : R)) (-8) (8070450532247929)
    (by norm_num) (by norm_num) (by rw [abs_lt]; constructor <;> norm_num)
  unfold toDouble
  rw [h]
  norm_num

theorem toDouble_0_1_add_0_6 : toDouble ((3602879701896397 / 2 ^ 55) + (5404319552844595 / 2 ^ 53) : R) = (3152519739159347 / 2 ^ 52) := by
  have h := roundTo_eq (q := 52) (x := ((3602879701896397 / 2 ^ 55) + (5404319552844595 / 2 ^ 53) : R)) (-1) (6305039478318694)
    (by norm_num) (by norm_num) (by rw [abs_lt]; constructor <;> norm_num)
  unfold toDouble
  rw [h]
  norm_num

theorem toDouble_delta_sum_mul : toDouble ((3152519739159347 / 2 ^ 52) * (5764607523034235 / 2 ^ 59) : R) = (1008806316530991 / 2 ^ 57) := by
  have h := roundTo_eq (q := 52) (x := ((3152519739159347 / 2 ^ 52) * (5764607523034235 / 2 ^ 59) : R)) (-8) (8070450532247928)
    (by norm_num) (by norm_num) (by rw [abs_lt]; constructor <;> norm_num)
  unfold toDouble
  rw [h]
  norm_num

theorem toDouble_0_99_mul_0_0032 : toDouble ((4458563631096791 / 2 ^ 52) * (7378697629483821 / 2 ^ 61) : R) = (7304910653188983 / 2 ^ 61) := by
  have h := roundTo_eq (q := 52) (x := ((4458563631096791 / 2 ^ 52) * (7378697629483821 / 2 ^ 61) : R)) (-9) (7304910653188983)
    (by norm_num) (by norm_num) (by rw [abs_lt]; constructor <;> norm_num)
  unfold toDouble
  rw [h]
  norm_num

theorem toDouble_speed_0_99 : toDouble ((1152921504606847 / 2 ^ 60) + (7304910653188983 / 2 ^ 61) : R) = (2402688415600669 / 2 ^ 59) := by
  have h := roundTo_eq_tie (q := 52) (x := ((1152921504606847 / 2 ^ 60) + (7304910653188983 / 2 ^ 61) : R)) (-8) (4805376831201338)
    (by norm_num) (by norm_num) (by norm_num)
  unfold toDouble
  rw [h]
  norm_num

theorem toDouble_near_one_mul_0_0001 : toDouble ((1 - 1 / 2 ^ 52) * (7378697629483821 / 2 ^ 66) : R) = (7378697629483819 / 2 ^ 66) := by
  have h := roundTo_eq (q := 52) (x := ((1 - 1 / 2 ^ 52) * (7378697629483821 / 2 ^ 66) : R)) (-14) (7378697629483819)
    (by norm_num) (by norm_num) (by rw [abs_lt]; constructor <;> norm_num)
  unfold toDouble
  rw [h]
  norm_num

theorem toDouble_three_add_near : toDouble (3 + (7378697629483819 / 2 ^ 66) : R) = (6755624621037113 / 2 ^ 51) := by
  have h := roundTo_eq (q := 52) (x := (3 + (7378697629483819 / 2 ^ 66) : R)) (1) (6755624621037113)
    (by norm_num) (by norm_num) (by rw [abs_lt]; constructor <;> norm_num)
  unfold toDouble
  rw [h]
  norm_num

theorem toDouble_three_add_0_0001 : toDouble (3 + (7378697629483821 / 2 ^ 66) : R) = (6755624621037113 / 2 ^ 51) := by
  have h := roundTo_eq (q := 52) (x := (3 + (7378697629483821 / 2 ^ 66) : R)) (1) (6755624621037113)
    (by norm_num) (by norm_num) (by rw [abs_lt]; constructor <;> norm_num)
  unfold toDouble
  rw [h]
  norm_num

theorem toDouble_rmax_mul_0_0032 : toDouble ((1 - 1 / 2 ^ 53) * (7378697629483821 / 2 ^ 61) : R) = (1844674407370955 / 2 ^ 59) := by
  have h := roundTo_eq (q := 52) (x := ((1 - 1 / 2 ^ 53) * (7378697629483821 / 2 ^ 61) : R)) (-9) (7378697629483820)
    (by norm_num) (by norm_num) (by rw [abs_lt]; constructor <;> norm_num)
  unfold toDouble
  rw [h]
  norm_num

theorem toDouble_speed_rmax : toDouble ((1152921504606847 / 2 ^ 60) + (1844674407370955 / 2 ^ 59) : R) = (4842270319348757 / 2 ^ 60) := by
  have h := roundTo_eq (q := 52) (x := ((1152921504606847 / 2 ^ 60) + (1844674407370955 / 2 ^ 59) : R)) (-8) (4842270319348757)
    (by norm_num) (by norm_num) (by rw [abs_lt]; constructor <;> norm_num)
  unfold toDouble
  rw [h]
  norm_num

theorem toDouble_rmax_mul_pi : toDouble ((1 - 1 / 2 ^ 53) * (884279719003555 / 2 ^ 48) : R) = (7074237752028439 / 2 ^ 51) := by
  have h := roundTo_eq (q := 52) (x := ((1 - 1 / 2 ^ 53) * (884279719003555 / 2 ^ 48) : R)) (1) (7074237752028439)
    (by norm_num) (by norm_num) (by rw [abs_lt]; constructor <;> norm_num)
  unfold toDouble
  rw [h]
  norm_num

theorem toDouble_ang_rmax : toDouble ((7074237752028439 / 2 ^ 51) * 2 : R) = (7074237752028439 / 2 ^ 50) := by
  have h := roundTo_eq (q := 52) (x := ((7074237752028439 / 2 ^ 51) * 2 : R)) (2) (7074237752028439)
    (by norm_num) (by norm_num) (by rw [abs_lt]; constructor <;> norm_num)
  unfold toDouble
  rw [h]
  norm_num

theorem toDouble_two_pi : toDouble ((884279719003555 / 2 ^ 48) * 2 : R) = (884279719003555 / 2 ^ 47) := by
  have h := roundTo_eq (q := 52) (x := ((884279719003555 / 2 ^ 48) * 2 : R)) (2) (7074237752028440)
    (by norm_num) (by norm_num) (by rw [abs_lt]; constructor <;> norm_num)
  unfold toDouble
  rw [h]
  norm_num

end Evaluations

/-! ## Evaluations with the real cosine and sine -/

section RealEvaluations

theorem mathCos_zero : mathCos (JSMath.mk Real.cos Real.sin Real.pi) 0 = 1 := by
  simp [mathCos, toDouble_one]

theorem mathSin_zero : mathSin (JSMath.mk Real.cos Real.sin Real.pi) 0 = 0 := by
  simp [mathSin, toDouble_zero]

theorem mathPI_real :
    mathPI (JSMath.mk Real.cos Real.sin Real.pi) = 884279719003555 / 2 ^ 48 := by
  have h := roundTo_eq (q := 52) (x := Real.pi) 1 7074237752028440
    (by have := Real.pi_gt_three; norm_num; linarith)
    (by have := Real.pi_lt_d20; norm_num at this ⊢; linarith)
    (by
      have h1 := Real.pi_gt_d20
      have h2 := Real.pi_lt_d20
      rw [abs_lt]
      constructor
      · norm_num at h1 ⊢
        linarith
      · norm_num at h2 ⊢
        linarith)
  unfold mathPI toDouble
  rw [h]
  norm_num

theorem scenarioTerrain_wellFormed (R : Type) [LinearOrderedField R] [FloorRing R] :
    (scenarioTerrain R).WellFormed := by
  simp [Terrain.WellFormed, scenarioTerrain, oneVertexTerrain]

theorem oneVertexTerrain_wellFormed {R : Type} [LinearOrderedField R] [FloorRing R]
    (orig : Vector3 R) (wave : Wave R) : (oneVertexTerrain orig wave).WellFormed := by
  simp [Terrain.WellFormed, oneVertexTerrain]

theorem moved_scenario (speed : ℝ) :
    moved (JSMath.mk Real.cos Real.sin Real.pi) (Vector3.mk 10 0 5) (Wave.mk 0 3 speed)
      = Vector3.mk 13 0 5 := by
  simp only [moved, froundVector, mathCos_zero, mathSin_zero, jsMul_zero_left,
    jsMul_one_left toDouble_three, jsAdd_zero_left toDouble_zero, fround_zero, fround_five]
  have e : jsAdd (10 : ℝ) 3 = 13 := by
    unfold jsAdd
    norm_num
    exact toDouble_thirteen
  rw [e, fround_thirteen]

theorem moved_amplitude (speed : ℝ) :
    moved (JSMath.mk Real.cos Real.sin Real.pi) (Vector3.mk 10 0 5)
        (Wave.mk 0 (toDouble 3.00005) speed)
      = Vector3.mk (3407885 / 2 ^ 18) 0 5 := by
  simp only [moved, froundVector, mathCos_zero, mathSin_zero, jsMul_zero_left,
    jsMul_one_left (toDouble_idem _), jsAdd_zero_left toDouble_zero, fround_zero, fround_five]
  have e : jsAdd (10 : ℝ) (toDouble 3.00005) = 7318377541974727 / 2 ^ 49 := by
    unfold jsAdd
    rw [toDouble_3_00005, toDouble_ten_add_amp]
  rw [e, fround_ten_add_amp]

end RealEvaluations

/-! ## Properties of `Terrain.update` -/

section TerrainClaims

variable {R : Type} [LinearOrderedField R] [FloorRing R]

/-- C1 (counterexample): on the one-vertex surface with original position
`(10, 0, 5)` and wave `{ang: 0, amp: 3.00005, speed: 0.001}`, one call
`update(1)` stores `x = 13.000049591064453125`, the binary32 rounding of
`10 + cos(0) * 3.00005`, which is not the number `10 + cos(0) * 3.00005`
itself. -/
theorem stored_position_is_float32 :
    ∃ t1, (oneVertexTerrain (Vector3.mk 10 0 5)
          (Wave.mk 0 (toDouble 3.00005) (toDouble 0.001)) : Terrain ℝ).update
        (JSMath.mk Real.cos Real.sin Real.pi) 1 = some t1 ∧
      t1.position = [Vector3.mk (3407885 / 2 ^ 18) 0 5] ∧
      jsAdd (10 : ℝ)
          (jsMul (mathCos (JSMath.mk Real.cos Real.sin Real.pi) 0) (toDouble 3.00005))
        = 7318377541974727 / 2 ^ 49 ∧
      (3407885 / 2 ^ 18 : ℝ) ≠ 7318377541974727 / 2 ^ 49 := by
  refine ⟨_, update_eq _ _ 1 (oneVertexTerrain_wellFormed _ _), ?_, ?_, ?_⟩
  · simp only [updated, oneVertexTerrain, List.zipWith_cons_cons, List.zipWith_nil_right,
      moved_amplitude]
  · rw [mathCos_zero, jsMul_one_left (toDouble_idem _)]
    unfold jsAdd
    rw [toDouble_3_00005, toDouble_ten_add_amp]
  · norm_num

/-- C1 (amended): one call of `update(delta)` on a terrain with one wave
record and one original position per vertex returns, and for every vertex
index `i` it stores as position of vertex `i` the binary32 roundings of
`orig.x + cos(a) * amp`, `orig.y + sin(a) * amp` and `orig.z`, with `a` the
angle before the call and the sums and products those of JavaScript, and
leaves `waves[i].ang = a + waves[i].speed`.  On the one-vertex scenario
surface, with `delta = 1`, the position becomes `(13, 0, 5)` and the angle
`0.001`. -/
theorem update_moves_each_vertex (M : JSMath R) (t : Terrain R) (delta : R)
    (hwf : t.WellFormed) :
    (∃ t1, t.update M delta = some t1 ∧
      t1.position.length = t.position.length ∧
      t1.waves.length = t.position.length ∧
      ∀ i, i < t.position.length →
        ∃ orig wave, t.originalPositions[i]? = some orig ∧ t.waves[i]? = some wave ∧
          t1.position[i]? =
            some (Vector3.mk (fround (jsAdd orig.x (jsMul (mathCos M wave.ang) wave.amp)))
              (fround (jsAdd orig.y (jsMul (mathSin M wave.ang) wave.amp)))
              (fround orig.z)) ∧
          t1.waves[i]? = some (Wave.mk (jsAdd wave.ang wave.speed) wave.amp wave.speed)) ∧
    (∃ t1, (scenarioTerrain ℝ).update (JSMath.mk Real.cos Real.sin Real.pi) 1 = some t1 ∧
      t1.position = [Vector3.mk 13 0 5] ∧
      t1.waves.map (fun w => w.ang) = [toDouble 0.001]) := by
  constructor
  · refine ⟨updated M t delta, update_eq M t delta hwf, ?_, ?_, ?_⟩
    · simp [updated, hwf.1, hwf.2]
    · simp [updated, hwf.2]
    · intro i hi
      have hio : i < t.originalPositions.length := by rw [hwf.1]; exact hi
      have hiw : i < t.waves.length := by rw [hwf.2]; exact hi
      refine ⟨t.originalPositions[i], t.waves[i], List.getElem?_eq_getElem hio,
        List.getElem?_eq_getElem hiw, ?_, ?_⟩
      · simp [updated, List.getElem?_zipWith, List.getElem?_eq_getElem hio,
          List.getElem?_eq_getElem hiw, moved, froundVector]
      · simp [updated, List.getElem?_map, List.getElem?_eq_getElem hiw, advanced]
  · refine ⟨_, update_eq _ _ 1 (scenarioTerrain_wellFormed ℝ), ?_, ?_⟩
    · simp only [updated, scenarioTerrain, oneVertexTerrain, List.zipWith_cons_cons,
        List.zipWith_nil_right, moved_scenario]
    · simp only [updated, scenarioTerrain, oneVertexTerrain, List.map_cons, List.map_nil,
        advanced, jsAdd_zero_left (toDouble_idem _)]

/-- Witness of the amended C1 on the one-vertex scenario surface. -/
theorem update_moves_each_vertex_witness :
    (scenarioTerrain ℝ).WellFormed ∧
    ∃ t1, (scenarioTerrain ℝ).update (JSMath.mk Real.cos Real.sin Real.pi) 1 = some t1 ∧
      t1.position = [Vector3.mk 13 0 5] ∧
      t1.waves.map (fun w => w.ang) = [toDouble 0.001] :=
  ⟨scenarioTerrain_wellFormed ℝ,
    (update_moves_each_vertex (JSMath.mk Real.cos Real.sin Real.pi) (scenarioTerrain ℝ) 1
      (scenarioTerrain_wellFormed ℝ)).2⟩

/-- C2 (counterexample): on the one-vertex scenario surface one call
`update(2)` leaves the wave angle at `0 + 0.001`, not at
`0 + 2 * 0.001` as accumulation in proportion to elapsed time would give. -/
theorem angle_not_proportional_to_delta :
    ∃ t1, (scenarioTerrain ℝ).updates (JSMath.mk Real.cos Real.sin Real.pi) [2] = some t1 ∧
      t1.waves.map (fun w => w.ang) = [toDouble 0.001] ∧
      t1.waves.map (fun w => w.ang) ≠
        (scenarioTerrain ℝ).waves.map (fun w => jsAdd w.ang (jsMul 2 w.speed)) := by
  have e1 : (List.foldl (updated (JSMath.mk Real.cos Real.sin Real.pi))
      (scenarioTerrain ℝ) [2]).waves.map (fun w => w.ang) = [toDouble 0.001] := by
    simp only [List.foldl_cons, List.foldl_nil, updated, scenarioTerrain, oneVertexTerrain,
      List.map_cons, List.map_nil, advanced, jsAdd_zero_left (toDouble_idem _)]
  refine ⟨_, updates_eq _ [2] _ (scenarioTerrain_wellFormed ℝ), e1, ?_⟩
  rw [e1]
  simp only [scenarioTerrain, oneVertexTerrain, List.map_cons, List.map_nil,
    jsAdd_zero_left (toDouble_jsMul _ _)]
  unfold jsMul
  rw [toDouble_0_001, toDouble_twice_0_001]
  norm_num

/-- C2 (amended): after `k` calls of `update`, whatever the deltas, the
angle of every wave record is the result of `k` successive JavaScript
additions of its speed to its angle before the calls; amplitude and speed
are unchanged. -/
theorem angle_advances_once_per_update (M : JSMath R) (t : Terrain R) (ds : List R)
    (hwf : t.WellFormed) :
    ∃ t1, t.updates M ds = some t1 ∧
      t1.waves.length = t.waves.length ∧
      ∀ (i : Nat) (wave : Wave R), t.waves[i]? = some wave →
        t1.waves[i]? =
          some (Wave.mk ((fun a => jsAdd a wave.speed)^[ds.length] wave.ang)
            wave.amp wave.speed) := by
  refine ⟨_, updates_eq M ds t hwf, ?_, ?_⟩
  · simp [foldl_updated_waves]
  · intro i wave hw
    simp [foldl_updated_waves, List.getElem?_map, hw, advancedBy]

/-- Witness of the amended C2: three updates of the scenario surface. -/
theorem angle_advances_once_per_update_witness :
    (scenarioTerrain ℝ).WellFormed ∧
    ∃ t1, (scenarioTerrain ℝ).updates (JSMath.mk Real.cos Real.sin Real.pi) [1, 0, 2]
        = some t1 ∧
      t1.waves.length = (scenarioTerrain ℝ).waves.length ∧
      ∀ (i : Nat) (wave : Wave ℝ), (scenarioTerrain ℝ).waves[i]? = some wave →
        t1.waves[i]? =
          some (Wave.mk ((fun a => jsAdd a wave.speed)^[([1, 0, 2] : List ℝ).length] wave.ang)
            wave.amp wave.speed) :=
  ⟨scenarioTerrain_wellFormed ℝ,
    angle_advances_once_per_update (JSMath.mk Real.cos Real.sin Real.pi)
      (scenarioTerrain ℝ) [1, 0, 2] (scenarioTerrain_wellFormed ℝ)⟩

/-- C3 (counterexample): a terrain constructed with the empty options
object and updated with the deltas `0.1` and `0.6` has
`mesh.rotation.z = 0.007`, whereas `(0.1 + 0.6) * rotationSpeed` is
`0.006999999999999999`. -/
theorem rotation_not_sum_times_speed :
    ∃ t1, (Terrain.constructor (JSMath.mk Real.cos Real.sin Real.pi)
          (fun _ _ _ _ => [Vector3.mk 10 0 5]) (fun _ => 0) {}).updates
        (JSMath.mk Real.cos Real.sin Real.pi) [toDouble 0.1, toDouble 0.6] = some t1 ∧
      t1.mesh.rotation.z = 8070450532247929 / 2 ^ 60 ∧
      jsMul (jsAdd (toDouble 0.1) (toDouble 0.6))
          (Terrain.constructor (JSMath.mk Real.cos Real.sin Real.pi)
            (fun _ _ _ _ => [Vector3.mk 10 0 5]) (fun _ => 0) {}).rotationSpeed
        = 1008806316530991 / 2 ^ 57 ∧
      (8070450532247929 / 2 ^ 60 : ℝ) ≠ 1008806316530991 / 2 ^ 57 := by
  have hrs : (Terrain.constructor (JSMath.mk Real.cos Real.sin Real.pi)
      (fun _ _ _ _ => [Vector3.mk 10 0 5]) (fun _ => 0) {}).rotationSpeed
      = 5764607523034235 / 2 ^ 59 := by
    simp only [Terrain.constructor, orDefault, toDouble_0_01]
  refine ⟨_, updates_eq _ _ _ (constructor_wellFormed _ _ _ _), ?_, ?_, ?_⟩
  · rw [foldl_updated_mesh, hrs]
    simp only [Terrain.constructor, rotatedBy, List.foldl_cons, List.foldl_nil]
    rw [jsAdd_zero_left (toDouble_jsMul _ _)]
    unfold jsAdd jsMul
    rw [toDouble_0_1, toDouble_0_6, toDouble_0_1_mul_0_01, toDouble_0_6_mul_0_01,
      toDouble_rotation_sum]
  · rw [hrs]
    unfold jsAdd jsMul
    rw [toDouble_0_1, toDouble_0_6, toDouble_0_1_add_0_6, toDouble_delta_sum_mul]
  · norm_num

/-- C3 (amended): for a terrain just constructed (mesh rotation
`(0, 0, 0)`), `k` calls of `update` with deltas `d_1..d_k` return and leave
`mesh.rotation.z` equal to the result of the successive JavaScript
assignments `z += d_j * rotationSpeed` from `0`, with `mesh.rotation.x`,
`mesh.rotation.y`, `mesh.position` and `rotationSpeed` as they were at
construction. -/
theorem rotation_accumulates (M : JSMath R) (cylinder : R → R → R → R → List (Vector3 R))
    (random : Nat → R) (options : TerrainOptions R) (ds : List R) :
    (Terrain.constructor M cylinder random options).mesh.rotation = Euler.mk 0 0 0 ∧
    ∃ t1, (Terrain.constructor M cylinder random options).updates M ds = some t1 ∧
      t1.mesh.rotation.z =
        ds.foldl (fun z d => jsAdd z
          (jsMul d (Terrain.constructor M cylinder random options).rotationSpeed)) 0 ∧
      t1.mesh.rotation.x = (Terrain.constructor M cylinder random options).mesh.rotation.x ∧
      t1.mesh.rotation.y = (Terrain.constructor M cylinder random options).mesh.rotation.y ∧
      t1.mesh.position = (Terrain.constructor M cylinder random options).mesh.position ∧
      t1.rotationSpeed = (Terrain.constructor M cylinder random options).rotationSpeed := by
  refine ⟨rfl, _, updates_eq M ds _ (constructor_wellFormed M cylinder random options), ?_⟩
  rw [foldl_updated_mesh]
  refine ⟨?_, rfl, rfl, rfl, (foldl_updated_fixed M ds _).2.1⟩
  simp [Terrain.constructor, rotatedBy]

end TerrainClaims

section TerrainClaims2

variable {R : Type} [LinearOrderedField R] [FloorRing R]

theorem moved_after_first_y_pos :
    0 < (moved (JSMath.mk Real.cos Real.sin Real.pi) (Vector3.mk 10 0 5)
      (Wave.mk (toDouble 0.001) 3 (toDouble 0.001))).y := by
  have hc0 : (0 : ℝ) < toDouble 0.001 := toDouble_pos (by norm_num)
  have hc1 : (toDouble 0.001 : ℝ) < Real.pi := by
    rw [toDouble_0_001]
    have := Real.pi_gt_three
    norm_num
    linarith
  have hs : 0 < Real.sin (toDouble 0.001) := Real.sin_pos_of_pos_of_lt_pi hc0 hc1
  simp only [moved, froundVector, mathSin, jsAdd, jsMul, zero_add]
  apply fround_pos
  apply toDouble_pos
  apply toDouble_pos
  exact mul_pos (toDouble_pos hs) (by norm_num)

/-- C4 (counterexample): the scenario surface after `update(1)` has its
vertex at `(13, 0, 5)`; a further `update(0)` moves it, its `y` becoming
the stored value of `sin(0.001) * 3`, which is positive, not `0`. -/
theorem zero_delta_moves_vertices :
    ∃ t1 t2, (scenarioTerrain ℝ).update (JSMath.mk Real.cos Real.sin Real.pi) 1 = some t1 ∧
      t1.update (JSMath.mk Real.cos Real.sin Real.pi) 0 = some t2 ∧
      t1.position = [Vector3.mk 13 0 5] ∧
      t2.position ≠ t1.position := by
  have hwf := scenarioTerrain_wellFormed ℝ
  refine ⟨_, _, update_eq _ _ 1 hwf, update_eq _ _ 0 (updated_wellFormed _ _ 1 hwf), ?_, ?_⟩
  · simp only [updated, scenarioTerrain, oneVertexTerrain, List.zipWith_cons_cons,
      List.zipWith_nil_right, moved_scenario]
  · simp only [updated, scenarioTerrain, oneVertexTerrain, List.zipWith_cons_cons,
      List.zipWith_nil_right, List.map_cons, List.map_nil, advanced, moved_scenario,
      jsAdd_zero_left (toDouble_idem _)]
    intro h
    have hy := moved_after_first_y_pos
    rw [List.cons.injEq] at h
    rw [h.1] at hy
    exact absurd hy (lt_irrefl _)

/-- C4 (amended): from a state reached by one `update`, any number of
further calls `update(0)` return and leave the mesh rotation and mesh
position unchanged, keep the vertex count and keep the `z` of every vertex;
the wave angles advance by one speed per call all the same. -/
theorem zero_delta_keeps_rotation_and_z (M : JSMath R) (t : Terrain R) (d : R) (n : Nat)
    (hwf : t.WellFormed) :
    ∃ t1 t2, t.update M d = some t1 ∧
      t1.updates M (List.replicate n 0) = some t2 ∧
      t2.mesh = t1.mesh ∧
      t2.position.length = t1.position.length ∧
      t2.position.map (fun p => p.z) = t1.position.map (fun p => p.z) ∧
      t2.waves = t1.waves.map (advancedBy n) := by
  have hwf1 := updated_wellFormed M t d hwf
  refine ⟨_, _, update_eq M t d hwf, updates_eq M _ _ hwf1, ?_, ?_, ?_, ?_⟩
  · rw [foldl_updated_mesh, rotatedBy_zeros]
    simp only [updated]
    exact toDouble_jsAdd _ _
  · exact foldl_updated_length M _ _ hwf1
  · have z1 := updated_zRounded M t d hwf
    have z2 := foldl_updated_zRounded M (List.replicate n 0) _ hwf1 z1
    unfold ZRounded at z1 z2
    rw [z2, z1, (foldl_updated_fixed M _ _).1]
  · rw [foldl_updated_waves]
    simp

/-- Witness of the amended C4 on the scenario surface. -/
theorem zero_delta_keeps_rotation_and_z_witness :
    (scenarioTerrain ℝ).WellFormed ∧
    ∃ t1 t2, (scenarioTerrain ℝ).update (JSMath.mk Real.cos Real.sin Real.pi) 1 = some t1 ∧
      t1.updates (JSMath.mk Real.cos Real.sin Real.pi) (List.replicate 2 0) = some t2 ∧
      t2.mesh = t1.mesh ∧
      t2.position.length = t1.position.length ∧
      t2.position.map (fun p => p.z) = t1.position.map (fun p => p.z) ∧
      t2.waves = t1.waves.map (advancedBy 2) :=
  ⟨scenarioTerrain_wellFormed ℝ,
    zero_delta_keeps_rotation_and_z (JSMath.mk Real.cos Real.sin Real.pi)
      (scenarioTerrain ℝ) 1 2 (scenarioTerrain_wellFormed ℝ)⟩

/-- C5: after any number of calls of `update` on a constructed terrain,
with arbitrary deltas, the calls return, the vertex count and
`originalPositions` are those of construction, every current vertex has the
`z` of its original position, and every wave record has the amplitude and
speed it was constructed with. -/
theorem update_keeps_z_and_wave_parameters (M : JSMath R)
    (cylinder : R → R → R → R → List (Vector3 R))
    (random : Nat → R) (options : TerrainOptions R) (ds : List R) :
    ∃ t1, (Terrain.constructor M cylinder random options).updates M ds = some t1 ∧
      t1.position.length = (Terrain.constructor M cylinder random options).position.length ∧
      t1.originalPositions =
        (Terrain.constructor M cylinder random options).originalPositions ∧
      t1.waves.length = (Terrain.constructor M cylinder random options).waves.length ∧
      (∀ (i : Nat) (cur : Vector3 R), t1.position[i]? = some cur →
        ∃ orig, (Terrain.constructor M cylinder random options).originalPositions[i]?
            = some orig ∧ cur.z = orig.z) ∧
      (∀ (i : Nat) (wave : Wave R),
        (Terrain.constructor M cylinder random options).waves[i]? = some wave →
        ∃ w1, t1.waves[i]? = some w1 ∧ w1.amp = wave.amp ∧ w1.speed = wave.speed) := by
  have hwf := constructor_wellFormed M cylinder random options
  refine ⟨_, updates_eq M ds _ hwf, foldl_updated_length M ds _ hwf,
    (foldl_updated_fixed M ds _).1, ?_, ?_, ?_⟩
  · simp [foldl_updated_waves]
  · intro i cur hc
    have hz := foldl_updated_zKept M ds _ hwf (constructor_zKept M cylinder random options)
      (constructor_float32Originals M cylinder random options)
    have := zKept_getElem _ hz i cur hc
    rwa [(foldl_updated_fixed M ds _).1] at this
  · intro i wave hw
    refine ⟨advancedBy ds.length wave, ?_, rfl, rfl⟩
    simp [foldl_updated_waves, List.getElem?_map, hw]

/-- C6 (counterexample): with the draw `Math.random() = 0.99` the
constructed wave has speed `0.001 + 0.99 * 0.0032 = 0.004168`, which is not
below `0.0041`; with the draw `1 - 2^-52` the amplitude is `3.0001`, and
with the draw `1 - 2^-53` the speed is `0.0042`, so neither upper bound is
strict.  All three draws lie in `[0, 1)`. -/
theorem speed_not_below_0041 :
    (((0 : ℝ) ≤ toDouble 0.99 ∧ (toDouble 0.99 : ℝ) < 1) ∧
      ∃ w ∈ (Terrain.constructor (JSMath.mk Real.cos Real.sin Real.pi)
          (fun _ _ _ _ => [Vector3.mk 10 0 5]) (fun _ => toDouble 0.99) {}).waves,
        w.speed = 2402688415600669 / 2 ^ 59 ∧ ¬ w.speed < toDouble 0.0041 ∧
          ¬ w.speed < 0.0041) ∧
    (((0 : ℝ) ≤ 1 - 1 / 2 ^ 52 ∧ (1 - 1 / 2 ^ 52 : ℝ) < 1) ∧
      ∃ w ∈ (Terrain.constructor (JSMath.mk Real.cos Real.sin Real.pi)
          (fun _ _ _ _ => [Vector3.mk 10 0 5]) (fun _ => 1 - 1 / 2 ^ 52) {}).waves,
        w.amp = toDouble 3.0001 ∧ ¬ w.amp < toDouble 3.0001 ∧ ¬ w.amp < 3.0001) ∧
    (((0 : ℝ) ≤ 1 - 1 / 2 ^ 53 ∧ (1 - 1 / 2 ^ 53 : ℝ) < 1) ∧
      ∃ w ∈ (Terrain.constructor (JSMath.mk Real.cos Real.sin Real.pi)
          (fun _ _ _ _ => [Vector3.mk 10 0 5]) (fun _ => 1 - 1 / 2 ^ 53) {}).waves,
        w.speed = toDouble 0.0042 ∧ ¬ w.speed < toDouble 0.0042) := by
  refine ⟨⟨?_, ?_⟩, ⟨?_, ?_⟩, ⟨?_, ?_⟩⟩
  · rw [toDouble_0_99]
    norm_num
  · have e : jsAdd (toDouble 0.001) (jsMul (toDouble 0.99) (toDouble (0.0032 : ℝ)))
        = 2402688415600669 / 2 ^ 59 := by
      unfold jsAdd jsMul
      rw [toDouble_0_001, toDouble_0_99, toDouble_0_0032, toDouble_0_99_mul_0_0032,
        toDouble_speed_0_99]
    simp only [Terrain.constructor, constructorLoop, newWave, List.map_cons, List.map_nil,
      List.nil_append, List.mem_singleton, exists_eq_left, e, toDouble_0_0041]
    norm_num
  · norm_num
  · have e : jsAdd 3 (jsMul (1 - 1 / 2 ^ 52) (toDouble (0.0001 : ℝ))) = toDouble 3.0001 := by
      unfold jsAdd jsMul
      rw [toDouble_0_0001, toDouble_near_one_mul_0_0001, toDouble_three_add_near,
        toDouble_3_0001]
    simp only [Terrain.constructor, constructorLoop, newWave, List.map_cons, List.map_nil,
      List.nil_append, List.mem_singleton, exists_eq_left, e, lt_irrefl, not_false_eq_true,
      true_and]
    rw [toDouble_3_0001]
    norm_num
  · norm_num
  · have e : jsAdd (toDouble 0.001) (jsMul (1 - 1 / 2 ^ 53) (toDouble (0.0032 : ℝ)))
        = toDouble 0.0042 := by
      unfold jsAdd jsMul
      rw [toDouble_0_001, toDouble_0_0032, toDouble_rmax_mul_0_0032, toDouble_speed_rmax,
        toDouble_0_0042]
    simp only [Terrain.constructor, constructorLoop, newWave, List.map_cons, List.map_nil,
      List.nil_append, List.mem_singleton, exists_eq_left, e, lt_irrefl, not_false_eq_true,
      and_self]

/-- C6 (amended): a terrain constructed on a geometry of `N` vertices has
`N` wave records and `N` original positions, and when every draw of
`Math.random` is a JavaScript number in `[0, 1)` each wave record has `ang`
in `[0, 2 * Math.PI)`, `amp` in the closed interval `[3, 3.0001]` and
`speed` in the closed interval `[0.001, 0.0042]`, the bounds being the
JavaScript numbers so written. -/
theorem constructor_wave_ranges (M : JSMath R)
    (cylinder : R → R → R → R → List (Vector3 R))
    (random : Nat → R) (options : TerrainOptions R)
    (hrandom : ∀ n, (0 ≤ random n ∧ random n < 1) ∧ toDouble (random n) = random n)
    (hpi : mathPI M = 884279719003555 / 2 ^ 48) :
    (Terrain.constructor M cylinder random options).waves.length =
      (Terrain.constructor M cylinder random options).position.length ∧
    (Terrain.constructor M cylinder random options).originalPositions.length =
      (Terrain.constructor M cylinder random options).position.length ∧
    ∀ w ∈ (Terrain.constructor M cylinder random options).waves,
      (0 ≤ w.ang ∧ w.ang < jsMul (mathPI M) 2) ∧ (3 ≤ w.amp ∧ w.amp ≤ toDouble 3.0001) ∧
        (toDouble 0.001 ≤ w.speed ∧ w.speed ≤ toDouble 0.0042) := by
  have hwf := constructor_wellFormed M cylinder random options
  refine ⟨hwf.2, hwf.1, ?_⟩
  intro w hw
  rw [constructor_waves, List.mem_map] at hw
  obtain ⟨j, _, rfl⟩ := hw
  have hmax : ∀ n, random n ≤ 1 - 1 / 2 ^ 53 := by
    intro n
    have h := le_pred_of_fixed_lt_one 52 (hrandom n).2 (hrandom n).1.2
    have e : (1 : R) - (2 : R) ^ (-(((52 : ℕ) : ℤ) + 1)) = 1 - 1 / 2 ^ 53 := by norm_num
    rw [e] at h
    exact h
  obtain ⟨⟨a0, _⟩, _⟩ := hrandom (3 * j)
  obtain ⟨⟨b0, b1⟩, _⟩ := hrandom (3 * j + 1)
  obtain ⟨⟨c0, _⟩, _⟩ := hrandom (3 * j + 2)
  have a2 := hmax (3 * j)
  have c2 := hmax (3 * j + 2)
  simp only [newWave]
  refine ⟨⟨?_, ?_⟩, ⟨?_, ?_⟩, ⟨?_, ?_⟩⟩
  · unfold jsMul
    rw [hpi]
    apply toDouble_nonneg
    apply mul_nonneg _ (by norm_num)
    apply toDouble_nonneg
    exact mul_nonneg a0 (by norm_num)
  · unfold jsMul
    rw [hpi, toDouble_two_pi]
    have s1 : toDouble (random (3 * j) * (884279719003555 / 2 ^ 48))
        ≤ (7074237752028439 / 2 ^ 51 : R) := by
      rw [← toDouble_rmax_mul_pi]
      apply toDouble_mono (mul_nonneg a0 (by norm_num))
      exact mul_le_mul_of_nonneg_right a2 (by norm_num)
    have s0 : 0 ≤ toDouble (random (3 * j) * (884279719003555 / 2 ^ 48)) :=
      toDouble_nonneg (mul_nonneg a0 (by norm_num))
    have s2 : toDouble (toDouble (random (3 * j) * (884279719003555 / 2 ^ 48)) * 2)
        ≤ (7074237752028439 / 2 ^ 50 : R) := by
      rw [← toDouble_ang_rmax]
      apply toDouble_mono (mul_nonneg s0 (by norm_num))
      exact mul_le_mul_of_nonneg_right s1 (by norm_num)
    refine lt_of_le_of_lt s2 ?_
    norm_num
  · unfold jsAdd jsMul
    have x0 : 0 ≤ toDouble (random (3 * j + 1) * toDouble 0.0001) :=
      toDouble_nonneg (mul_nonneg b0 (toDouble_nonneg (by norm_num)))
    have h := toDouble_mono (x := (3 : R)) (by norm_num)
      (by linarith : (3 : R) ≤ 3 + toDouble (random (3 * j + 1) * toDouble 0.0001))
    rwa [toDouble_three] at h
  · unfold jsAdd jsMul
    have c : (0 : R) ≤ toDouble 0.0001 := toDouble_nonneg (by norm_num)
    have x0 : 0 ≤ toDouble (random (3 * j + 1) * toDouble 0.0001) :=
      toDouble_nonneg (mul_nonneg b0 c)
    have x1 : toDouble (random (3 * j + 1) * toDouble 0.0001) ≤ toDouble 0.0001 := by
      have h := toDouble_mono (mul_nonneg b0 c)
        (by nlinarith : random (3 * j + 1) * toDouble 0.0001 ≤ toDouble 0.0001)
      rwa [toDouble_idem] at h
    have h := toDouble_mono (by linarith : (0 : R) ≤ 3 + toDouble (random (3 * j + 1) * toDouble 0.0001))
      (by linarith : 3 + toDouble (random (3 * j + 1) * toDouble 0.0001) ≤ 3 + toDouble 0.0001)
    refine le_trans h (le_of_eq ?_)
    rw [toDouble_0_0001, toDouble_three_add_0_0001, toDouble_3_0001]
  · unfold jsAdd jsMul
    have a : (0 : R) ≤ toDouble 0.001 := toDouble_nonneg (by norm_num)
    have x0 : 0 ≤ toDouble (random (3 * j + 2) * toDouble 0.0032) :=
      toDouble_nonneg (mul_nonneg c0 (toDouble_nonneg (by norm_num)))
    have h := toDouble_mono a
      (by linarith : toDouble 0.001 ≤ toDouble 0.001 + toDouble (random (3 * j + 2) * toDouble 0.0032))
    rwa [toDouble_idem] at h
  · unfold jsAdd jsMul
    rw [toDouble_0_001, toDouble_0_0032, toDouble_0_0042]
    have x0 : 0 ≤ toDouble (random (3 * j + 2) * (7378697629483821 / 2 ^ 61)) :=
      toDouble_nonneg (mul_nonneg c0 (by norm_num))
    have x1 : toDouble (random (3 * j + 2) * (7378697629483821 / 2 ^ 61))
        ≤ (1844674407370955 / 2 ^ 59 : R) := by
      rw [← toDouble_rmax_mul_0_0032]
      apply toDouble_mono (mul_nonneg c0 (by norm_num))
      exact mul_le_mul_of_nonneg_right c2 (by norm_num)
    rw [← toDouble_speed_rmax]
    apply toDouble_mono
    · have : (0 : R) ≤ 1152921504606847 / 2 ^ 60 := by norm_num
      linarith
    · linarith

/-- Witness of the amended C6: one vertex, every draw equal to `0.99`,
`Math.PI` the JavaScript number nearest to `π`. -/
theorem constructor_wave_ranges_witness :
    (∀ n : Nat, ((0 : ℝ) ≤ (fun _ => toDouble 0.99 : Nat → ℝ) n ∧
        (fun _ => toDouble 0.99 : Nat → ℝ) n < 1) ∧
      toDouble ((fun _ => toDouble 0.99 : Nat → ℝ) n) = (fun _ => toDouble 0.99 : Nat → ℝ) n) ∧
    mathPI (JSMath.mk Real.cos Real.sin Real.pi) = 884279719003555 / 2 ^ 48 ∧
    ∀ w ∈ (Terrain.constructor (JSMath.mk Real.cos Real.sin Real.pi)
        (fun _ _ _ _ => [Vector3.mk 10 0 5]) (fun _ => toDouble 0.99) {}).waves,
      (0 ≤ w.ang ∧ w.ang < jsMul (mathPI (JSMath.mk Real.cos Real.sin Real.pi)) 2) ∧
        (3 ≤ w.amp ∧ w.amp ≤ toDouble 3.0001) ∧
        (toDouble 0.001 ≤ w.speed ∧ w.speed ≤ toDouble 0.0042) :=
  ⟨fun _ => ⟨by rw [toDouble_0_99]; norm_num, toDouble_idem _⟩, mathPI_real,
    (constructor_wave_ranges (JSMath.mk Real.cos Real.sin Real.pi)
      (fun _ _ _ _ => [Vector3.mk 10 0 5]) (fun _ => toDouble 0.99) {}
      (fun _ => ⟨by rw [toDouble_0_99]; norm_num, toDouble_idem _⟩) mathPI_real).2.2⟩

/-- C9: a terrain constructed with the empty options object gets radius
`600`, height `800`, `40` radial segments and `10` height segments, but
rotation speed `0.01`, which is not the documented default `0.2`; a non-zero
field supplied in the options is used as given, and a supplied rotation
speed of `0` is replaced by `0.01`. -/
theorem constructor_defaults (M : JSMath R) (cylinder : R → R → R → R → List (Vector3 R))
    (random : Nat → R) :
    (Terrain.constructor M cylinder random {}).radius = 600 ∧
    (Terrain.constructor M cylinder random {}).height = 800 ∧
    (Terrain.constructor M cylinder random {}).radialSegments = 40 ∧
    (Terrain.constructor M cylinder random {}).heightSegments = 10 ∧
    (Terrain.constructor M cylinder random {}).rotationSpeed = toDouble 0.01 ∧
    (Terrain.constructor M cylinder random {}).rotationSpeed ≠ toDouble 0.2 ∧
    (∀ a b c d e : R, a ≠ 0 → b ≠ 0 → c ≠ 0 → d ≠ 0 → e ≠ 0 →
      (Terrain.constructor M cylinder random
          { radius := some a, height := some b, radialSegments := some c,
            heightSegments := some d, rotationSpeed := some e }).radius = a ∧
      (Terrain.constructor M cylinder random
          { radius := some a, height := some b, radialSegments := some c,
            heightSegments := some d, rotationSpeed := some e }).height = b ∧
      (Terrain.constructor M cylinder random
          { radius := some a, height := some b, radialSegments := some c,
            heightSegments := some d, rotationSpeed := some e }).radialSegments = c ∧
      (Terrain.constructor M cylinder random
          { radius := some a, height := some b, radialSegments := some c,
            heightSegments := some d, rotationSpeed := some e }).heightSegments = d ∧
      (Terrain.constructor M cylinder random
          { radius := some a, height := some b, radialSegments := some c,
            heightSegments := some d, rotationSpeed := some e }).rotationSpeed = e) ∧
    (Terrain.constructor M cylinder random { rotationSpeed := some 0 }).rotationSpeed
      = toDouble 0.01 := by
  refine ⟨rfl, rfl, rfl, rfl, rfl, ?_, ?_, ?_⟩
  · simp only [Terrain.constructor, orDefault, toDouble_0_01, toDouble_0_2]
    norm_num
  · intro a b c d e ha hb hc hd he
    simp [Terrain.constructor, orDefault, ha, hb, hc, hd, he]
  · simp [Terrain.constructor, orDefault]

/-- C10 (counterexample): on the one-vertex surface with original
position `(10, 0, 5)` and wave `{ang: 0, amp: 3.00005, speed: 0.001}`, after
`update(1)` the vertex is stored at `(13.000049591064453125, 0, 5)`, whose
squared distance to the original position is not the square of the
amplitude. -/
theorem vertex_off_circle :
    ∃ t1, (oneVertexTerrain (Vector3.mk 10 0 5)
          (Wave.mk 0 (toDouble 3.00005) (toDouble 0.001)) : Terrain ℝ).update
        (JSMath.mk Real.cos Real.sin Real.pi) 1 = some t1 ∧
      t1.position = [Vector3.mk (3407885 / 2 ^ 18) 0 5] ∧
      t1.originalPositions = [Vector3.mk 10 0 5] ∧
      t1.waves.map (fun w => w.amp) = [1688878007761607 / 2 ^ 49] ∧
      ((3407885 / 2 ^ 18 : ℝ) - 10) ^ 2 + ((0 : ℝ) - 0) ^ 2
        ≠ (1688878007761607 / 2 ^ 49) ^ 2 := by
  refine ⟨_, update_eq _ _ 1 (oneVertexTerrain_wellFormed _ _), ?_, ?_, ?_, ?_⟩
  · simp only [updated, oneVertexTerrain, List.zipWith_cons_cons, List.zipWith_nil_right,
      moved_amplitude]
  · simp only [updated, oneVertexTerrain]
  · simp only [updated, oneVertexTerrain, List.map_cons, List.map_nil, advanced,
      toDouble_3_00005]
  · norm_num

/-- C10 (amended): after a call of `update` every vertex `i` is stored at
the binary32 rounding of `(orig.x + cos(a) * amp, orig.y + sin(a) * amp,
orig.z)`, computed with the JavaScript sums and products from its own
original position and wave record, and its wave keeps its amplitude; and the
new position and wave record of vertex `i` are the same for any other
terrain and any other delta that have the same `originalPositions[i]` and
`waves[i]`. -/
theorem vertex_depends_on_own_state_only (M : JSMath R)
    (t : Terrain R) (delta : R) (hwf : t.WellFormed) :
    ∃ t1, t.update M delta = some t1 ∧
      (∀ (i : Nat) (orig : Vector3 R) (wave : Wave R),
        t.originalPositions[i]? = some orig → t.waves[i]? = some wave →
        ∃ cur w1, t1.position[i]? = some cur ∧ t1.waves[i]? = some w1 ∧
          t1.originalPositions[i]? = some orig ∧ w1.amp = wave.amp ∧
          cur.x = fround (jsAdd orig.x (jsMul (mathCos M wave.ang) wave.amp)) ∧
          cur.y = fround (jsAdd orig.y (jsMul (mathSin M wave.ang) wave.amp)) ∧
          cur.z = fround orig.z) ∧
      (∀ (u : Terrain R) (delta2 : R), u.WellFormed →
        ∃ u1, u.update M delta2 = some u1 ∧
          ∀ (i : Nat) (orig : Vector3 R) (wave : Wave R),
            t.originalPositions[i]? = some orig → t.waves[i]? = some wave →
            u.originalPositions[i]? = some orig → u.waves[i]? = some wave →
            u1.position[i]? = t1.position[i]? ∧ u1.waves[i]? = t1.waves[i]?) := by
  refine ⟨_, update_eq M t delta hwf, ?_, ?_⟩
  · intro i orig wave ho hw
    refine ⟨moved M orig wave, advanced wave, ?_, ?_, ?_, rfl, rfl, rfl, rfl⟩
    · simp [updated, List.getElem?_zipWith, ho, hw]
    · simp [updated, List.getElem?_map, hw]
    · simpa [updated] using ho
  · intro u delta2 hu
    refine ⟨_, update_eq M u delta2 hu, ?_⟩
    intro i orig wave ho hw ho2 hw2
    simp [updated, List.getElem?_zipWith, List.getElem?_map, ho, hw, ho2, hw2]

/-- Witness of the amended C10 on the scenario surface. -/
theorem vertex_depends_on_own_state_only_witness :
    (scenarioTerrain ℝ).WellFormed ∧
    ∃ t1, (scenarioTerrain ℝ).update (JSMath.mk Real.cos Real.sin Real.pi) 1 = some t1 ∧
      ∀ (i : Nat) (orig : Vector3 ℝ) (wave : Wave ℝ),
        (scenarioTerrain ℝ).originalPositions[i]? = some orig →
        (scenarioTerrain ℝ).waves[i]? = some wave →
        ∃ cur w1, t1.position[i]? = some cur ∧ t1.waves[i]? = some w1 ∧
          t1.originalPositions[i]? = some orig ∧ w1.amp = wave.amp ∧
          cur.x = fround (jsAdd orig.x
            (jsMul (mathCos (JSMath.mk Real.cos Real.sin Real.pi) wave.ang) wave.amp)) ∧
          cur.y = fround (jsAdd orig.y
            (jsMul (mathSin (JSMath.mk Real.cos Real.sin Real.pi) wave.ang) wave.amp)) ∧
          cur.z = fround orig.z :=
  ⟨scenarioTerrain_wellFormed ℝ,
    (vertex_depends_on_own_state_only (JSMath.mk Real.cos Real.sin Real.pi)
      (scenarioTerrain ℝ) 1 (scenarioTerrain_wellFormed ℝ)).imp
      (fun _ h => ⟨h.1, h.2.1⟩)⟩

end TerrainClaims2

/-! ## Properties of `Player.loadModel` and `Player.update` -/

section PlayerClaims

variable {R Obj Clip : Type}

/-- C7: in the success callback of `loadModel`, `playerMixer` becomes a
mixer on the loaded object and the object is appended to `playerGroup`; a
clip is started exactly when the bundle has a clip list of at least 7
clips, and the clip started is then `animations[6]` and no other; bundles
with 7 or 8 clips start clip 6, bundles with 5 or 6 clips or without a clip
list start none. -/
theorem onLoad_starts_seventh_clip (p : Player R Obj Clip) (gltf : Gltf Obj Clip) :
    ∃ mixer, (p.onLoad gltf).playerMixer = some mixer ∧ mixer.root = gltf.scene ∧
      (p.onLoad gltf).children = p.children ++ [GroupChild.model gltf.scene] ∧
      (mixer.playing ≠ [] ↔ ∃ l, gltf.animations = some l ∧ 7 ≤ l.length) ∧
      (∀ l, gltf.animations = some l → 7 ≤ l.length →
        ∃ c, l[6]? = some c ∧ mixer.playing = [c]) ∧
      (∀ l, gltf.animations = some l → l.length = 7 ∨ l.length = 8 →
        ∃ c, l[6]? = some c ∧ mixer.playing = [c]) ∧
      (∀ l, gltf.animations = some l → l.length = 5 ∨ l.length = 6 → mixer.playing = []) ∧
      (gltf.animations = none → mixer.playing = []) := by
  have key : ∀ l, gltf.animations = some l → 7 ≤ l.length →
      ∃ c, l[6]? = some c ∧
        (p.onLoad gltf).playerMixer = some { root := gltf.scene, playing := [c] } := by
    intro l hl h7
    have h6 : l.length > 6 := by omega
    refine ⟨l[6], List.getElem?_eq_getElem h6, ?_⟩
    simp [Player.onLoad, hl, h6]
  have low : ∀ l, gltf.animations = some l → l.length < 7 →
      (p.onLoad gltf).playerMixer = some { root := gltf.scene, playing := [] } := by
    intro l hl h7
    have h6 : ¬ l.length > 6 := by omega
    simp [Player.onLoad, hl, h6]
  have hnone : gltf.animations = none →
      (p.onLoad gltf).playerMixer = some { root := gltf.scene, playing := [] } := by
    intro hl
    simp [Player.onLoad, hl]
  have hchildren : (p.onLoad gltf).children = p.children ++ [GroupChild.model gltf.scene] :=
    rfl
  cases hl : gltf.animations with
  | none =>
    refine ⟨_, hnone hl, rfl, hchildren, ?_, ?_, ?_, ?_, ?_⟩
    · simp
    · intro l h; cases h
    · intro l h; cases h
    · intro l h; cases h
    · intro _; rfl
  | some l =>
    rcases Nat.lt_or_ge l.length 7 with h | h
    · refine ⟨_, low l hl h, rfl, hchildren, ?_, ?_, ?_, ?_, ?_⟩
      · simp only [ne_eq, not_true_eq_false, false_iff, not_exists, not_and]
        intro l2 h2
        cases h2
        omega
      · intro l2 h2 h7
        cases h2
        omega
      · intro l2 h2 h7
        cases h2
        omega
      · intro _ _ _; rfl
      · intro h2; cases h2
    · obtain ⟨c, hc, hm⟩ := key l hl h
      refine ⟨_, hm, rfl, hchildren, ?_, ?_, ?_, ?_, ?_⟩
      · simp only [ne_eq, List.cons_ne_nil, not_false_eq_true, true_iff]
        exact ⟨l, rfl, h⟩
      · intro l2 h2 _
        cases h2
        exact ⟨c, hc, rfl⟩
      · intro l2 h2 _
        cases h2
        exact ⟨c, hc, rfl⟩
      · intro l2 h2 h56
        cases h2
        omega
      · intro h2; cases h2

/-- C8: when `playerMixer` is null, the error callback of `loadModel`
appends exactly one `1 x 2 x 1` box mesh to `playerGroup`, leaves
`playerMixer` null and starts no load; every sequence of later calls of
`update` leaves the whole player state, the load count included, as the
error callback left it. -/
theorem onError_adds_box_and_update_is_idle [LinearOrderedField R]
    (mixerUpdate : AnimationMixer Obj Clip → R → AnimationMixer Obj Clip)
    (p : Player R Obj Clip) (hmixer : p.playerMixer = none) (ds : List R) :
    p.onError.children = p.children ++ [GroupChild.fallbackMesh 1 2 1 0x00ff00] ∧
    p.onError.playerMixer = none ∧
    p.onError.loadsStarted = p.loadsStarted ∧
    p.onError.groupPosition = p.groupPosition ∧
    p.onError.groupRotation = p.groupRotation ∧
    p.onError.cameraPosition = p.cameraPosition ∧
    (∀ delta, Player.update mixerUpdate p.onError delta = p.onError) ∧
    ds.foldl (Player.update mixerUpdate) p.onError = p.onError := by
  have hidle : ∀ delta, Player.update mixerUpdate p.onError delta = p.onError := by
    intro delta
    simp [Player.update, Player.onError, hmixer]
  refine ⟨rfl, hmixer, rfl, rfl, rfl, rfl, hidle, ?_⟩
  induction ds with
  | nil => rfl
  | cons d ds ih => rw [List.foldl_cons, hidle d, ih]

/-- Witness of C8: the player as its constructor leaves it, with options
omitted, then a failed load and three updates. -/
theorem onError_adds_box_and_update_is_idle_witness :
    (Player.constructor (JSMath.mk Real.cos Real.sin Real.pi) {} :
        Player ℝ Unit Unit).playerMixer = none ∧
    [1, 0, 2].foldl (Player.update (fun m _ => m))
        (Player.constructor (JSMath.mk Real.cos Real.sin Real.pi) {} :
          Player ℝ Unit Unit).onError =
      (Player.constructor (JSMath.mk Real.cos Real.sin Real.pi) {} :
        Player ℝ Unit Unit).onError :=
  ⟨rfl,
    (onError_adds_box_and_update_is_idle (fun m _ => m)
      (Player.constructor (JSMath.mk Real.cos Real.sin Real.pi) {} : Player ℝ Unit Unit)
      rfl [1, 0, 2]).2.2.2.2.2.2.2⟩

end PlayerClaims

end ThreeTerrain
